import Mathlib

/-
Verification of the AMR fleet manager core against its specification.

Conventions of the shallow embedding:
* Python floats are modelled as real numbers (exact arithmetic); `math.hypot`
  is the Euclidean norm `Real.sqrt (dx^2 + dy^2)`.
* Python `list.sort(key=...)` is a stable ascending sort by key; it is
  modelled by `AMR.sortBy` (stable insertion sort) with `AMR.keyLt`, the
  strict comparison of the computed keys (ties keep the original order,
  exactly as a stable sort does).
* Python dicts are modelled as association lists in insertion order;
  `AMR.dictInsert` overwrites in place (preserving position) like a dict
  assignment does, so keys stay unique.
* Python sets are modelled as lists with membership; `AMR.setAdd` adds an
  element if absent.
* `random.Random(seed)` is modelled by an abstract deterministic generator:
  a state type `σ`, a seeding function and one transition per sampling
  helper (`PyRng`).  Every draw of the source is threaded explicitly in
  source order, so each embedded function is a pure function of its
  arguments and the generator specification.
* Lifecycle states are the Python string literals.
-/

namespace AMR

/-- Strict comparison of sort keys (Python tuple comparison is
lexicographic, realised here through `toLex`ed products). -/
def keyLt {α β : Type} [LinearOrder β] (key : α → β) (a b : α) : Bool :=
  decide (key a < key b)

/-- Insert `x` after every element whose key is not strictly greater,
the insertion step of a stable ascending sort. -/
def insertBy {α : Type} (lt : α → α → Bool) (x : α) : List α → List α
  | [] => [x]
  | y :: l => if lt x y then x :: y :: l else y :: insertBy lt x l

/-- Stable ascending sort (model of Python's `list.sort(key=...)` /
`sorted(key=...)`, which is exactly characterised by sortedness plus
stability). -/
def sortBy {α : Type} (lt : α → α → Bool) (l : List α) : List α :=
  l.foldl (fun acc x => insertBy lt x acc) []

/-- Python dict assignment `d[k] = v`: overwrite in place if the key is
present, else append (insertion order is preserved). -/
def dictInsert {κ ν : Type} [DecidableEq κ] (d : List (κ × ν)) (k : κ) (v : ν) :
    List (κ × ν) :=
  if d.any (fun p => p.1 = k) then d.map (fun p => if p.1 = k then (k, v) else p)
  else d ++ [(k, v)]

/-- Python set `s.add(x)`. -/
def setAdd {α : Type} [DecidableEq α] (s : List α) (x : α) : List α :=
  if x ∈ s then s else s ++ [x]

/-- Python `min(l, key=key)`: the first element with minimal key
(strict-improvement fold). -/
def minByKey {α β : Type} [LinearOrder β] (key : α → β) : List α → Option α
  | [] => none
  | x :: l => some (l.foldl (fun best y => if key y < key best then y else best) x)

/-- Model of Python's `random.Random`: an abstract deterministic generator.
`init` is the seeding `random.Random(seed)`; each other field is one
sampling helper, returning the drawn value and the successor state. -/
structure PyRng (σ : Type) where
  init : ℤ → σ
  randrange : ℕ → σ → ℕ × σ
  randrangeAB : ℕ → ℕ → σ → ℕ × σ
  random : σ → ℝ × σ
  uniform : ℝ → ℝ → σ → ℝ × σ
  randint : ℤ → ℤ → σ → ℤ × σ

/-- Draw `n` values sequentially with the generator step `g` (model of a
list comprehension performing one draw per element, in order). -/
def genList {σ α : Type} (g : σ → α × σ) : ℕ → σ → List α × σ
  | 0, s => ([], s)
  | n + 1, s =>
      let p := g s
      let rest := genList g n p.2
      (p.1 :: rest.1, rest.2)

/-- Euclidean distance helper, shared shape of the `_distance` helpers of
`fitness.py`, `baseline.py` and of the engine kinematics:
`math.hypot(ax - bx, ay - by)` is `Real.sqrt ((ax-bx)^2 + (ay-bY)^2)`. -/
noncomputable def distanceHelper (ax ay bx bY : ℝ) : ℝ :=
  Real.sqrt ((ax - bx) ^ 2 + (ay - bY) ^ 2)

/-! ## services/optimizer-service-py: GA fitness, operators and loop -/

namespace GA

/-- Robot snapshot used by the optimizer (`app/schemas.py`). -/
structure Robot where
  id : ℤ
  x : ℝ
  y : ℝ
  speed : ℝ
  battery : ℝ
  state : String
  current_job_id : Option String := none

/-- Job definition used by the optimizer (`app/schemas.py`). -/
structure Job where
  id : String
  pickup_x : ℝ
  pickup_y : ℝ
  dropoff_x : ℝ
  dropoff_y : ℝ
  deadline_ts : ℤ
  priority : ℤ
  state : String := "pending"

instance : Inhabited Robot := ⟨⟨0, 0, 0, 0, 0, "idle", none⟩⟩

/-- Result of a fitness evaluation (`app/ga/fitness.py`, `FitnessResult`). -/
structure FitnessResult where
  score : ℝ
  job_scores : List (String × ℝ)

/-- Deterministic job order for GA evaluation (`sorted_jobs`):
sort by `(deadline_ts asc, -priority, id asc)`. -/
def sorted_jobs (jobs : List Job) : List Job :=
  sortBy (keyLt (fun j => toLex (j.deadline_ts, toLex (-j.priority, j.id)))) jobs

/-- Parallel per-robot arrays threaded through `evaluate_chromosome`'s loop,
plus the accumulated total and per-job scores. -/
structure EvalSt where
  robot_time : List ℝ
  robot_pos : List (ℝ × ℝ)
  robot_battery : List ℝ
  robot_job_count : List ℕ
  total_score : ℝ
  job_scores : List (String × ℝ)

/-- One iteration of the `evaluate_chromosome` loop body for a single job
(`app/ga/fitness.py`, lines 56-90).  `gene` is `chromosome[idx]`. -/
noncomputable def jobStep (robots : List Robot) (service_time_s : ℤ)
    (gene : ℕ) (job : Job) (st : EvalSt) : EvalSt :=
  let k := gene % robots.length
  let rp := st.robot_pos.getD k (0, 0)
  let travel_to_pickup := distanceHelper rp.1 rp.2 job.pickup_x job.pickup_y
  let travel_to_dropoff :=
    distanceHelper job.pickup_x job.pickup_y job.dropoff_x job.dropoff_y
  let distance := travel_to_pickup + travel_to_dropoff
  let speed := max (robots.getD k default).speed 0.1
  let travel_time := distance / speed
  let completion_time :=
    st.robot_time.getD k 0 + travel_time + 2 * (service_time_s : ℝ)
  let lateness := max 0 (completion_time - (job.deadline_ts : ℝ))
  let battery_after := st.robot_battery.getD k 0 - distance * 0.1
  let battery_penalty : ℝ :=
    if battery_after < 0 then 500 + |battery_after| * 100
    else if battery_after < 10 then 200 else 0
  let load_penalty : ℝ := ((st.robot_job_count.getD k 0 : ℝ)) ^ 2 * 30
  let job_penalty :=
    lateness * 1000 + distance * 2 + ((6 - job.priority : ℤ) : ℝ) * 3
      + battery_penalty + load_penalty
  { robot_time := st.robot_time.set k completion_time
    robot_pos := st.robot_pos.set k (job.dropoff_x, job.dropoff_y)
    robot_battery := st.robot_battery.set k (max 0 battery_after)
    robot_job_count := st.robot_job_count.set k (st.robot_job_count.getD k 0 + 1)
    total_score := st.total_score + job_penalty
    job_scores := dictInsert st.job_scores job.id job_penalty }

/-- The `for idx, job in enumerate(ordered_jobs)` loop of
`evaluate_chromosome`. -/
noncomputable def evalLoop (robots : List Robot) (service_time_s : ℤ)
    (chromosome : List ℕ) : List Job → ℕ → EvalSt → EvalSt
  | [], _, st => st
  | job :: rest, idx, st =>
      evalLoop robots service_time_s chromosome rest (idx + 1)
        (jobStep robots service_time_s (chromosome.getD idx 0) job st)

/-- Initial per-robot arrays of `evaluate_chromosome`. -/
def initEvalSt (robots : List Robot) : EvalSt :=
  { robot_time := robots.map (fun _ => 0)
    robot_pos := robots.map (fun r => (r.x, r.y))
    robot_battery := robots.map (fun r => r.battery)
    robot_job_count := robots.map (fun _ => 0)
    total_score := 0
    job_scores := [] }

/-- Model of `evaluate_chromosome` (`app/ga/fitness.py`): evaluate a chromosome and
return the total score plus per-job contributions.  Chromosome genes are
naturals (the source takes Python ints modulo `len(robots)`; genes are
produced by `randrange(robot_count)` and hence non-negative). -/
noncomputable def evaluate_chromosome (chromosome : List ℕ) (robots : List Robot)
    (jobs : List Job) (service_time_s : ℤ) : FitnessResult :=
  if jobs.isEmpty then ⟨0, []⟩
  else if robots.isEmpty then
    ⟨1000000000, jobs.foldl (fun d j => dictInsert d j.id 1000000000) []⟩
  else
    let ordered_jobs := sorted_jobs jobs
    let final := evalLoop robots service_time_s chromosome ordered_jobs 0
      (initEvalSt robots)
    ⟨final.total_score, final.job_scores⟩

/-! ### Genetic operators (`app/ga/operators.py`) -/

/-- Model of `initialize_population`: `population_size` rows of `chromosome_len`
genes, each drawn by `rng.randrange(robot_count)`; a zero chromosome
length yields the single empty chromosome with no draws. -/
def initialize_population {σ : Type} (R : PyRng σ) (population_size
    chromosome_len robot_count : ℕ) (s : σ) : List (List ℕ) × σ :=
  if chromosome_len = 0 then ([[]], s)
  else genList (genList (R.randrange robot_count) chromosome_len) population_size s

/-- Model of `tournament_select` with `k = 3`: draw three indices, return a copy of
the population member whose `(fitness, index)` key is minimal (Python
`min` keeps the first minimiser). -/
noncomputable def tournament_select {σ : Type} (R : PyRng σ)
    (population : List (List ℕ)) (fitnesses : List ℝ) (s : σ) : List ℕ × σ :=
  let p := genList (R.randrange population.length) 3 s
  let best_idx :=
    (minByKey (fun idx => toLex (fitnesses.getD idx 0, idx)) p.1).getD 0
  (population.getD best_idx [], p.2)

/-- Model of `crossover`: one-point crossover; parents of length ≤ 1 are returned
as copies without drawing. -/
def crossover {σ : Type} (R : PyRng σ) (parent_a parent_b : List ℕ) (s : σ) :
    (List ℕ × List ℕ) × σ :=
  if parent_a.length ≤ 1 then ((parent_a, parent_b), s)
  else
    let p := R.randrangeAB 1 parent_a.length s
    ((parent_a.take p.1 ++ parent_b.drop p.1,
      parent_b.take p.1 ++ parent_a.drop p.1), p.2)

/-- Model of `mutate`: per-gene point mutation, one `rng.random()` per gene and one
`rng.randrange(robot_count)` per mutated gene, in index order. -/
noncomputable def mutate {σ : Type} (R : PyRng σ) (robot_count : ℕ)
    (mutation_rate : ℝ) : List ℕ → σ → List ℕ × σ
  | [], s => ([], s)
  | g :: rest, s =>
      let p := R.random s
      let q : ℕ × σ :=
        if p.1 < mutation_rate then R.randrange robot_count p.2 else (g, p.2)
      let r := mutate R robot_count mutation_rate rest q.2
      (q.1 :: r.1, r.2)

/-! ### GA loop (`app/ga/optimizer.py`) -/

/-- One evaluated population row `(score, idx, chromosome, job_scores)`. -/
structure EvalRow where
  score : ℝ
  idx : ℕ
  chrom : List ℕ
  job_scores : List (String × ℝ)

/-- Global best tracking: `(best_score, best_chromosome, best_job_scores)`;
`none` is the initial `float("inf")` / `None` state. -/
abbrev Best := ℝ × List ℕ × List (String × ℝ)

/-- The per-generation evaluation loop: build the evaluated rows in
population order while updating the global best on strict improvement. -/
noncomputable def evalPopulation (robots : List Robot) (jobs : List Job)
    (service_time_s : ℤ) : List (List ℕ) → ℕ → Option Best →
    List EvalRow × Option Best
  | [], _, best => ([], best)
  | c :: rest, idx, best =>
      let fit := evaluate_chromosome c robots jobs service_time_s
      let best' : Option Best :=
        match best with
        | none => some (fit.score, c, fit.job_scores)
        | some b =>
            if fit.score < b.1 then some (fit.score, c, fit.job_scores) else some b
      let r := evalPopulation robots jobs service_time_s rest (idx + 1) best'
      (⟨fit.score, idx, c, fit.job_scores⟩ :: r.1, r.2)

/-- The `while len(next_population) < population_size` breeding loop; the
argument `need` is the number of missing chromosomes.  The second child is
mutated and appended only when a slot remains after the first. -/
noncomputable def breedLoop {σ : Type} (R : PyRng σ)
    (sorted_population : List (List ℕ)) (fitnesses : List ℝ)
    (robot_count : ℕ) (crossover_rate mutation_rate : ℝ) :
    ℕ → List (List ℕ) → σ → List (List ℕ) × σ
  | 0, acc, s => (acc, s)
  | need + 1, acc, s =>
      let pa := tournament_select R sorted_population fitnesses s
      let pb := tournament_select R sorted_population fitnesses pa.2
      let coin := R.random pb.2
      let children :=
        if coin.1 < crossover_rate then crossover R pa.1 pb.1 coin.2
        else ((pa.1, pb.1), coin.2)
      let ca := mutate R robot_count mutation_rate children.1.1 children.2
      match need with
      | 0 => (acc ++ [ca.1], ca.2)
      | need' + 1 =>
          let cb := mutate R robot_count mutation_rate children.1.2 ca.2
          breedLoop R sorted_population fitnesses robot_count crossover_rate
            mutation_rate need' (acc ++ [ca.1, cb.1]) cb.2

/-- One GA generation: evaluate, sort by `(score, idx)`, keep the elite,
breed the remainder. -/
noncomputable def gaGeneration {σ : Type} (R : PyRng σ) (robots : List Robot)
    (jobs : List Job) (service_time_s : ℤ) (population_size elite_size : ℕ)
    (crossover_rate mutation_rate : ℝ) (population : List (List ℕ))
    (best : Option Best) (s : σ) : List (List ℕ) × Option Best × σ :=
  let e := evalPopulation robots jobs service_time_s population 0 best
  let sortedRows :=
    sortBy (keyLt (fun row : EvalRow => toLex (row.score, row.idx))) e.1
  let next0 := (sortedRows.take elite_size).map (fun row => row.chrom)
  let fitnesses := sortedRows.map (fun row => row.score)
  let sorted_population := sortedRows.map (fun row => row.chrom)
  let b := breedLoop R sorted_population fitnesses robots.length crossover_rate
    mutation_rate (population_size - next0.length) next0 s
  (b.1, e.2, b.2)

/-- The `for _ in range(generations)` loop. -/
noncomputable def gaLoop {σ : Type} (R : PyRng σ) (robots : List Robot)
    (jobs : List Job) (service_time_s : ℤ) (population_size elite_size : ℕ)
    (crossover_rate mutation_rate : ℝ) :
    ℕ → List (List ℕ) → Option Best → σ → List (List ℕ) × Option Best × σ
  | 0, pop, best, s => (pop, best, s)
  | g + 1, pop, best, s =>
      let r := gaGeneration R robots jobs service_time_s population_size
        elite_size crossover_rate mutation_rate pop best s
      gaLoop R robots jobs service_time_s population_size elite_size
        crossover_rate mutation_rate g r.1 r.2.1 r.2.2

/-- Optimizer output assignment (`app/schemas.py`, `Assignment`). -/
structure Assignment where
  job_id : String
  robot_id : ℤ
  score : ℝ

/-- Heterogeneous metadata value of the returned `meta` dict. -/
inductive MetaVal
  | f (x : ℝ)
  | i (n : ℤ)

/-- Decode the best chromosome back into assignments
(`optimize_assignments`, lines 84-93). -/
noncomputable def decodeAssignments (ordered_robots : List Robot)
    (best_job_scores : List (String × ℝ)) (best_chromosome : List ℕ) :
    List Job → ℕ → List Assignment
  | [], _ => []
  | job :: rest, idx =>
      let robot := ordered_robots.getD
        (best_chromosome.getD idx 0 % ordered_robots.length) default
      ⟨job.id, robot.id, (best_job_scores.lookup job.id).getD 0⟩ ::
        decodeAssignments ordered_robots best_job_scores best_chromosome rest
          (idx + 1)

/-- Model of `optimize_assignments` (`app/ga/optimizer.py`): run the GA and return
the sorted assignments plus the metadata dict. -/
noncomputable def optimize_assignments {σ : Type} (R : PyRng σ)
    (robots : List Robot) (jobs : List Job) (seed service_time_s : ℤ)
    (population_size generations elite_size : ℕ)
    (crossover_rate mutation_rate : ℝ) :
    List Assignment × List (String × MetaVal) :=
  let ordered_robots := sortBy (keyLt (fun r : Robot => r.id)) robots
  let ordered_jobs := sorted_jobs jobs
  if ordered_jobs.isEmpty || ordered_robots.isEmpty then
    ([], [("best_score", MetaVal.f 0), ("generations", MetaVal.i 0)])
  else
    let s0 := R.init seed
    let chromosome_len := ordered_jobs.length
    let ip := initialize_population R population_size chromosome_len
      ordered_robots.length s0
    let g := gaLoop R ordered_robots ordered_jobs service_time_s
      population_size elite_size crossover_rate mutation_rate generations
      ip.1 none ip.2
    let bestTriple : Best :=
      match g.2.1 with
      | some b => b
      | none =>
          let bc := ordered_jobs.map (fun _ => 0)
          let fit := evaluate_chromosome bc ordered_robots ordered_jobs
            service_time_s
          (fit.score, bc, fit.job_scores)
    let assignments := decodeAssignments ordered_robots bestTriple.2.2
      bestTriple.2.1 ordered_jobs 0
    let sortedA :=
      sortBy (keyLt (fun a : Assignment => toLex (a.job_id, a.robot_id)))
        assignments
    (sortedA,
      [("best_score", MetaVal.f bestTriple.1),
       ("generations", MetaVal.i generations),
       ("population_size", MetaVal.i population_size),
       ("seed", MetaVal.i seed)])

end GA

/-! ## services/dispatcher-worker-py/app/baseline.py -/

namespace Baseline

/-- Robot record of the dispatcher's shadow state (the dict stored by
`_handle_robot_updated`; `baseline.py` reads `id, x, y, state, battery`). -/
structure DRobot where
  id : ℤ
  x : ℝ
  y : ℝ
  speed : ℝ := 1
  battery : ℝ
  state : String
  current_job_id : Option String := none

/-- Job record of the dispatcher's shadow state (the dict stored by
`_handle_job_created`). -/
structure DJob where
  id : String
  pickup_x : ℝ
  pickup_y : ℝ
  dropoff_x : ℝ
  dropoff_y : ℝ
  deadline_ts : ℤ
  priority : ℤ
  state : String

/-- Assignment dict produced by `compute_baseline_assignments`. -/
structure BAssignment where
  job_id : String
  robot_id : ℤ
  reason : String
deriving DecidableEq

/-- The `pending_jobs` list comprehension (`baseline.py`, lines 27-31):
jobs in state pending/unassigned and not already assigned, in dict order. -/
def pendingJobsFilter (already_assigned : List String) : List DJob → List DJob
  | [] => []
  | j :: rest =>
      if (j.state = "pending" ∨ j.state = "unassigned") ∧
          j.id ∉ already_assigned then
        j :: pendingJobsFilter already_assigned rest
      else pendingJobsFilter already_assigned rest

/-- The `idle_robots` list comprehension (`baseline.py`, lines 32-38):
idle, unblocked, battery at least the threshold. -/
noncomputable def idleRobotsFilter (blocked_robots : List ℤ)
    (battery_threshold : ℝ) : List DRobot → List DRobot
  | [] => []
  | r :: rest =>
      if r.state = "idle" ∧ r.id ∉ blocked_robots ∧
          r.battery ≥ battery_threshold then
        r :: idleRobotsFilter blocked_robots battery_threshold rest
      else idleRobotsFilter blocked_robots battery_threshold rest

/-- The fallback comprehension (`baseline.py`, lines 41-45): idle and
unblocked, battery filter dropped. -/
def idleRobotsNoBattery (blocked_robots : List ℤ) : List DRobot → List DRobot
  | [] => []
  | r :: rest =>
      if r.state = "idle" ∧ r.id ∉ blocked_robots then
        r :: idleRobotsNoBattery blocked_robots rest
      else idleRobotsNoBattery blocked_robots rest

/-- Candidate robots including the demo-safe fallback (`baseline.py`,
lines 32-45): when the battery filter leaves no idle robot and pending
jobs exist, rebuild without the battery filter. -/
noncomputable def candidateRobots (robots : List DRobot)
    (blocked_robots : List ℤ) (battery_threshold : ℝ)
    (pending_jobs : List DJob) : List DRobot :=
  let idle_robots := idleRobotsFilter blocked_robots battery_threshold robots
  if idle_robots.isEmpty && !pending_jobs.isEmpty then
    idleRobotsNoBattery blocked_robots robots
  else idle_robots

/-- The inner `for robot in idle_robots` selection loop (`baseline.py`,
lines 54-63): nearest unused robot, distance ties broken by the smaller
robot id; the accumulator holds the best `(robot, distance)` so far
(`None` is the initial `best_robot=None, best_distance=inf` pair). -/
noncomputable def selectBest (job : DJob) (used_robots : List ℤ) :
    List DRobot → Option (DRobot × ℝ) → Option DRobot
  | [], best => best.map fun p => p.1
  | robot :: rest, best =>
      if robot.id ∈ used_robots then selectBest job used_robots rest best
      else
        let d := distanceHelper robot.x robot.y job.pickup_x job.pickup_y
        match best with
        | none => selectBest job used_robots rest (some (robot, d))
        | some p =>
            if d < p.2 ∨ (d = p.2 ∧ robot.id < p.1.id) then
              selectBest job used_robots rest (some (robot, d))
            else selectBest job used_robots rest (some p)

/-- The greedy outer loop (`baseline.py`, lines 53-71): per job in EDF
order, assign the selected robot, mark it used, append the assignment. -/
noncomputable def assignLoop :
    List DJob → List DRobot → List ℤ → List BAssignment → List BAssignment
  | [], _, _, acc => acc
  | job :: rest, idle_robots, used_robots, acc =>
      match selectBest job used_robots idle_robots none with
      | none => assignLoop rest idle_robots used_robots acc
      | some best_robot =>
          assignLoop rest idle_robots (setAdd used_robots best_robot.id)
            (acc ++ [⟨job.id, best_robot.id, "baseline_edf_nearest"⟩])

/-- Sort key of the pending jobs: `(deadline_ts asc, priority desc, id asc)`. -/
def jobKey (j : DJob) : ℤ ×ₗ (ℤ ×ₗ String) := toLex (j.deadline_ts, toLex (-j.priority, j.id))

/-- Sort key of the final assignment list: `(job_id, robot_id)`. -/
def assignmentKey (a : BAssignment) : String ×ₗ ℤ := toLex (a.job_id, a.robot_id)

/-- Model of `compute_baseline_assignments` (`baseline.py`): EDF + nearest idle
robot with battery fallback, result sorted by `(job_id, robot_id)`. -/
noncomputable def compute_baseline_assignments (robots : List DRobot)
    (jobs : List DJob) (already_assigned : List String)
    (blocked_robots : List ℤ) (battery_threshold : ℝ) : List BAssignment :=
  sortBy (keyLt assignmentKey)
    (assignLoop
      (sortBy (keyLt jobKey) (pendingJobsFilter already_assigned jobs))
      (sortBy (keyLt (fun r : DRobot => r.id))
        (candidateRobots robots blocked_robots battery_threshold
          (pendingJobsFilter already_assigned jobs)))
      [] [])

end Baseline

/-! ## services/sim-runner-py/app/sim: entities and engine -/

namespace Engine

/-- Robot state tracked by the simulation engine (`entities.py`). -/
structure Robot where
  id : ℤ
  x : ℝ
  y : ℝ
  speed : ℝ
  battery : ℝ
  state : String := "idle"
  current_job_id : Option String := none
  target_x : Option ℝ := none
  target_y : Option ℝ := none
  phase_remaining_s : ℝ := 0
  distance_traveled : ℝ := 0

/-- Job definition and lifecycle tracking (`entities.py`). -/
structure Job where
  id : String
  pickup_x : ℝ
  pickup_y : ℝ
  dropoff_x : ℝ
  dropoff_y : ℝ
  deadline_ts : ℤ
  priority : ℤ
  state : String := "pending"
  assigned_robot_id : Option ℤ := none
  created_sim_ts : ℤ := 0
  started_sim_ts : Option ℤ := none
  completed_sim_ts : Option ℤ := none
  lateness_s : ℝ := 0

/-- Job assignment message for a specific robot (`engine.py`, `Assignment`). -/
structure Assignment where
  job_id : String
  robot_id : ℤ

/-- The `robot.updated` payload built by `_robot_payload`. -/
structure RobotPayload where
  robot_id : ℤ
  state : String
  sim_time_s : ℤ
  x : ℝ
  y : ℝ
  speed : ℝ
  battery : ℝ
  current_job_id : Option String

/-- Engine configuration (constructor arguments of `SimulationEngine`). -/
structure EngineCfg where
  tick_hz : ℕ
  service_time_s : ℝ
  max_sim_seconds : ℤ
  emit_position_updates : Bool := true
  charge_rate : ℝ := 5
  charge_resume_threshold : ℝ := 20

/-- Model of `self.dt = 1.0 / tick_hz`. -/
noncomputable def EngineCfg.dt (cfg : EngineCfg) : ℝ := 1 / (cfg.tick_hz : ℝ)

/-- Engine state: the `SimulationState` entity lists plus the engine's own
bookkeeping dicts, and the trace of payloads handed to the
`robot_update_sink` callback (oldest first). -/
structure EngineState where
  run_id : String := ""
  robots : List Robot
  jobs : List Job
  tick : ℕ := 0
  last_emitted_state : List (ℤ × String) := []
  last_position_emit_sim_s : List (ℤ × ℤ) := []
  dropoff_service_remaining : List (ℤ × ℝ) := []
  resume_state : List (ℤ × String) := []
  events : List RobotPayload := []

/-- Model of `robots_by_id` lookup (dict built from `state.robots`; the Python dict
shares the mutable robot objects with the list, so lookup and in-place
update are modelled directly on the list). -/
def getRobot (s : EngineState) (rid : ℤ) : Option Robot :=
  s.robots.find? (fun r => decide (r.id = rid))

/-- Write back a mutated robot object (in-place mutation of the shared
object: positionally replace the entry with that id). -/
def setRobot (robots : List Robot) (r' : Robot) : List Robot :=
  robots.map (fun r => if r.id = r'.id then r' else r)

/-- Model of `jobs_by_id` lookup. -/
def getJob (jobs : List Job) (jid : String) : Option Job :=
  jobs.find? (fun j => decide (j.id = jid))

/-- Write back a mutated job object. -/
def setJob (jobs : List Job) (j' : Job) : List Job :=
  jobs.map (fun j => if j.id = j'.id then j' else j)

/-- Python dict `.pop(k, ...)`: remove a key. -/
def dictErase {κ ν : Type} [DecidableEq κ] (d : List (κ × ν)) (k : κ) :
    List (κ × ν) :=
  d.filter (fun p => decide (p.1 ≠ k))

/-- Model of `current_sim_time_s`: `tick // tick_hz`. -/
def currentSimTime (cfg : EngineCfg) (s : EngineState) : ℤ :=
  ((s.tick / cfg.tick_hz : ℕ) : ℤ)

/-- Python `round(x, 3)` (ties modelled as round-half-up; the claims do not
depend on the tie direction of float banker's rounding). -/
noncomputable def round3 (x : ℝ) : ℝ := ((round (x * 1000) : ℤ) : ℝ) / 1000

/-- Model of `_robot_payload`. -/
noncomputable def robotPayload (robot : Robot) (sim_time_s : ℤ) : RobotPayload :=
  ⟨robot.id, robot.state, sim_time_s, round3 robot.x, round3 robot.y,
   robot.speed, round3 robot.battery, robot.current_job_id⟩

/-- Model of `_emit_robot_updated`: forced emissions always publish and record state
and second; throttled ones publish at most once per integer sim-second per
robot and record only the second. -/
noncomputable def emitRobotUpdated (s : EngineState) (robot : Robot)
    (sim_time_s : ℤ) (force : Bool) : EngineState :=
  if force then
    { s with events := s.events ++ [robotPayload robot sim_time_s]
             last_emitted_state :=
               dictInsert s.last_emitted_state robot.id robot.state
             last_position_emit_sim_s :=
               dictInsert s.last_position_emit_sim_s robot.id sim_time_s }
  else
    match s.last_position_emit_sim_s.lookup robot.id with
    | some last_emit =>
        if sim_time_s ≤ last_emit then s
        else
          { s with events := s.events ++ [robotPayload robot sim_time_s]
                   last_position_emit_sim_s :=
                     dictInsert s.last_position_emit_sim_s robot.id sim_time_s }
    | none =>
        { s with events := s.events ++ [robotPayload robot sim_time_s]
                 last_position_emit_sim_s :=
                   dictInsert s.last_position_emit_sim_s robot.id sim_time_s }

/-- Model of `apply_assignment` (`engine.py`, lines 68-89): apply a job assignment
if the robot and job exist, the robot is idle and the job is
pending/unassigned; on success mutate both, enter `moving_to_pickup` and
emit one forced `robot.updated`. -/
noncomputable def apply_assignment (cfg : EngineCfg) (s : EngineState)
    (assignment : Assignment) : Bool × EngineState :=
  match getRobot s assignment.robot_id, getJob s.jobs assignment.job_id with
  | some robot, some job =>
      if robot.state ≠ "idle" then (false, s)
      else if ¬ (job.state = "pending" ∨ job.state = "unassigned") then
        (false, s)
      else
        let now := currentSimTime cfg s
        let job' := { job with state := "assigned"
                               assigned_robot_id := some robot.id
                               started_sim_ts := some now }
        let robot' := { robot with current_job_id := some job.id
                                   target_x := some job.pickup_x
                                   target_y := some job.pickup_y
                                   phase_remaining_s := 0
                                   state := "moving_to_pickup" }
        let s1 := { s with jobs := setJob s.jobs job'
                           robots := setRobot s.robots robot' }
        (true, emitRobotUpdated s1 robot' now true)
  | _, _ => (false, s)

/-- The arrival/service tail of `_advance_robot` (`engine.py`, lines
203-236), entered with the possibly-moved robot. -/
noncomputable def arrivalPhase (cfg : EngineCfg) (now : ℤ) (robot : Robot)
    (job : Job) (jobs : List Job) (resume : List (ℤ × String))
    (dropoff : List (ℤ × ℝ)) (distance_to_target step_distance : ℝ) :
    Robot × List Job × List (ℤ × String) × List (ℤ × ℝ) :=
  if ¬ (distance_to_target ≤ step_distance + 1e-9) then
    (robot, jobs, resume, dropoff)
  else if robot.state = "moving_to_pickup" then
    let phase0 :=
      if robot.phase_remaining_s ≤ 0 then cfg.service_time_s
      else robot.phase_remaining_s
    let phase1 := max 0 (phase0 - cfg.dt)
    if phase1 > 0 then
      ({ robot with phase_remaining_s := phase1 }, jobs, resume, dropoff)
    else
      ({ robot with state := "moving_to_dropoff"
                    target_x := some job.dropoff_x
                    target_y := some job.dropoff_y
                    phase_remaining_s := 0 },
       setJob jobs { job with state := "in_progress" }, resume, dropoff)
  else if robot.state = "moving_to_dropoff" then
    let remaining0 := (dropoff.lookup robot.id).getD cfg.service_time_s
    let remaining := max 0 (remaining0 - cfg.dt)
    if remaining > 0 then
      (robot, jobs, resume, dictInsert dropoff robot.id remaining)
    else
      ({ robot with state := "idle"
                    current_job_id := none
                    target_x := none
                    target_y := none
                    phase_remaining_s := 0 },
       setJob jobs
         { job with state := "completed"
                    completed_sim_ts := some now
                    lateness_s := ((max 0 (now - job.deadline_ts) : ℤ) : ℝ) },
       resume, dictErase dropoff robot.id)
  else (robot, jobs, resume, dropoff)

/-- Model of `_advance_robot` (`engine.py`, lines 156-236): advance a single robot
for the current tick, returning the mutated robot together with the jobs
list and the `resume_state` / `dropoff_service_remaining` dicts. -/
noncomputable def advanceRobot (cfg : EngineCfg) (now : ℤ) (robot : Robot)
    (jobs : List Job) (resume : List (ℤ × String)) (dropoff : List (ℤ × ℝ)) :
    Robot × List Job × List (ℤ × String) × List (ℤ × ℝ) :=
  if robot.state = "charging" then
    let battery' := min 100 (robot.battery + cfg.charge_rate * cfg.dt)
    if battery' ≥ cfg.charge_resume_threshold then
      ({ robot with battery := battery'
                    state := (resume.lookup robot.id).getD "idle" },
       jobs, dictErase resume robot.id, dropoff)
    else ({ robot with battery := battery' }, jobs, resume, dropoff)
  else if robot.battery ≤ 0 ∧
      (robot.state = "moving_to_pickup" ∨ robot.state = "moving_to_dropoff") then
    ({ robot with state := "charging" }, jobs,
     dictInsert resume robot.id robot.state, dropoff)
  else if ¬ (robot.state = "moving_to_pickup" ∨
      robot.state = "moving_to_dropoff") then
    (robot, jobs, resume, dropoff)
  else
    match getJob jobs (robot.current_job_id.getD "") with
    | none =>
        ({ robot with state := "idle"
                      current_job_id := none
                      target_x := none
                      target_y := none
                      phase_remaining_s := 0 }, jobs, resume, dropoff)
    | some job =>
        match robot.target_x, robot.target_y with
        | some tx, some ty =>
            let dx := tx - robot.x
            let dy := ty - robot.y
            let distance_to_target := Real.sqrt (dx ^ 2 + dy ^ 2)
            let step_distance := robot.speed * cfg.dt
            if distance_to_target > 0 then
              let travel := min distance_to_target step_distance
              let ratio := travel / distance_to_target
              let robot1 :=
                { robot with x := robot.x + dx * ratio
                             y := robot.y + dy * ratio
                             distance_traveled := robot.distance_traveled + travel
                             battery := max 0 (robot.battery - travel * 0.1) }
              if robot1.battery ≤ 0 then
                ({ robot1 with state := "charging" }, jobs,
                 dictInsert resume robot.id robot.state, dropoff)
              else
                arrivalPhase cfg now robot1 job jobs resume dropoff
                  distance_to_target step_distance
            else
              arrivalPhase cfg now robot job jobs resume dropoff
                distance_to_target step_distance
        | _, _ =>
            ({ robot with state := "idle", current_job_id := none },
             jobs, resume, dropoff)

/-- The per-robot body of `step` (`engine.py`, lines 94-100): advance,
then emit forced on state change or throttled otherwise, iterating over
the id-sorted robots. -/
noncomputable def stepLoop (cfg : EngineCfg) (now : ℤ) :
    List Robot → EngineState → EngineState
  | [], s => s
  | robot :: rest, s =>
      let prev_state := robot.state
      let adv := advanceRobot cfg now robot s.jobs s.resume_state
        s.dropoff_service_remaining
      let s1 := { s with jobs := adv.2.1
                         resume_state := adv.2.2.1
                         dropoff_service_remaining := adv.2.2.2
                         robots := setRobot s.robots adv.1 }
      let s2 :=
        if adv.1.state ≠ prev_state then emitRobotUpdated s1 adv.1 now true
        else if cfg.emit_position_updates then
          emitRobotUpdated s1 adv.1 now false
        else s1
      stepLoop cfg now rest s2

/-- Model of `step`: advance the simulation by one tick. -/
noncomputable def step (cfg : EngineCfg) (s : EngineState) : EngineState :=
  let now := currentSimTime cfg s
  let s' := stepLoop cfg now (sortBy (keyLt (fun r : Robot => r.id)) s.robots) s
  { s' with tick := s'.tick + 1 }

end Engine

/-! ## services/dispatcher-worker-py/app/main.py: per-run dispatcher state -/

namespace Dispatcher

/-- Per-run dispatcher state (`RunState` in `main.py`; the robots/jobs
dicts are keyed by id, the async locks are not part of the data model). -/
structure RunState where
  run_id : String := ""
  mode : String := "baseline"
  seed : ℤ := 0
  scale : String := "demo"
  robots : List (ℤ × Baseline.DRobot) := []
  jobs : List (String × Baseline.DJob) := []
  assigned_jobs : List String := []
  pending_assignments : List (ℤ × String) := []
  planned_queues : List (ℤ × List String) := []

/-- The `job.assigned` payload as published by `_emit_assignment`
(envelope fields other than the idempotency key are omitted; the
`event_id` sha1 digest is not modelled). -/
structure AssignedEvent where
  job_id : String
  robot_id : ℤ
  sim_time_s : ℤ
  reason : String
  idempotency_key : String

/-- Model of `_emit_assignment` (`main.py`, lines 373-411): re-check
`job_id ∉ assigned_jobs` and job state in `{pending, unassigned}` under
the assign lock; on publish add to `assigned_jobs`, set the job state to
`assigned`, move the robot shadow to `moving_to_pickup` and record the
pending assignment. -/
def emit_assignment (state : RunState) (job_id : String) (robot_id : ℤ)
    (sim_time_s : ℤ) (reason : String) : RunState × List AssignedEvent :=
  if job_id ∈ state.assigned_jobs then (state, [])
  else
    match state.jobs.lookup job_id with
    | none => (state, [])
    | some job =>
        if ¬ (job.state = "pending" ∨ job.state = "unassigned") then
          (state, [])
        else
          let payload : AssignedEvent :=
            ⟨job_id, robot_id, sim_time_s, reason,
             state.run_id ++ ":" ++ job_id⟩
          let robots' :=
            match state.robots.lookup robot_id with
            | none => state.robots
            | some robot =>
                dictInsert state.robots robot_id
                  { robot with state := "moving_to_pickup"
                               current_job_id := some job_id }
          ({ state with
              assigned_jobs := setAdd state.assigned_jobs job_id
              jobs := dictInsert state.jobs job_id
                { job with state := "assigned" }
              robots := robots'
              pending_assignments :=
                dictInsert state.pending_assignments robot_id job_id },
           [payload])

/-- The `for assignment in assignments` loop of `_dispatch_baseline`. -/
def emitList : RunState → List Baseline.BAssignment → ℤ →
    RunState × List AssignedEvent
  | state, [], _ => (state, [])
  | state, a :: rest, sim_time_s =>
      let r := emit_assignment state a.job_id a.robot_id sim_time_s a.reason
      let r2 := emitList r.1 rest sim_time_s
      (r2.1, r.2 ++ r2.2)

/-- Model of `_dispatch_baseline` (`main.py`, lines 269-280): run the baseline
heuristic on the shadow state and emit each assignment. -/
noncomputable def dispatch_baseline (battery_threshold : ℝ)
    (state : RunState) (sim_time_s : ℤ) : RunState × List AssignedEvent :=
  emitList state
    (Baseline.compute_baseline_assignments (state.robots.map Prod.snd)
      (state.jobs.map Prod.snd) state.assigned_jobs
      (state.pending_assignments.map Prod.fst) battery_threshold)
    sim_time_s

/-- The `while queue` loop of `_emit_planned_for_idle_robot`: pop queued
job ids, skipping unknown/assigned/non-pending jobs, emit for the first
eligible one and stop; returns the state, the events and the remaining
queue. -/
def emitPlannedLoop (state : RunState) (robot_id : ℤ) (sim_time_s : ℤ) :
    List String → RunState × List AssignedEvent × List String
  | [] => (state, [], [])
  | job_id :: queue =>
      match state.jobs.lookup job_id with
      | none => emitPlannedLoop state robot_id sim_time_s queue
      | some job =>
          if job_id ∈ state.assigned_jobs then
            emitPlannedLoop state robot_id sim_time_s queue
          else if ¬ (job.state = "pending" ∨ job.state = "unassigned") then
            emitPlannedLoop state robot_id sim_time_s queue
          else
            let r := emit_assignment state job_id robot_id sim_time_s
              "ga_planned"
            (r.1, r.2, queue)

/-- Model of `_emit_planned_for_idle_robot` (`main.py`, lines 353-371): assign the
next planned job to a specific idle robot with sufficient battery; queue
pops are written back when the robot had a queue entry. -/
noncomputable def emit_planned_for_idle_robot (battery_threshold : ℝ)
    (state : RunState) (robot_id : ℤ) (sim_time_s : ℤ) :
    RunState × List AssignedEvent :=
  match state.robots.lookup robot_id with
  | none => (state, [])
  | some robot =>
      if robot.state ≠ "idle" then (state, [])
      else if robot.battery < battery_threshold then (state, [])
      else
        match state.planned_queues.lookup robot_id with
        | none => (state, [])
        | some queue =>
            let r := emitPlannedLoop state robot_id sim_time_s queue
            ({ r.1 with planned_queues :=
                dictInsert r.1.planned_queues robot_id r.2.2 }, r.2.1)

/-- The dispatcher operations of the claim: a direct `_emit_assignment`
call, one baseline dispatch, one planned-queue emission for a robot. -/
inductive DOp
  | emit (job_id : String) (robot_id : ℤ) (sim_time_s : ℤ) (reason : String)
  | baseline (sim_time_s : ℤ)
  | planned (robot_id : ℤ) (sim_time_s : ℤ)

/-- Run one dispatcher operation. -/
noncomputable def runOp (battery_threshold : ℝ) (state : RunState) :
    DOp → RunState × List AssignedEvent
  | .emit j r t reason => emit_assignment state j r t reason
  | .baseline t => dispatch_baseline battery_threshold state t
  | .planned r t => emit_planned_for_idle_robot battery_threshold state r t

/-- Run a sequence of dispatcher operations, concatenating the published
events. -/
noncomputable def runOps (battery_threshold : ℝ) :
    RunState → List DOp → RunState × List AssignedEvent
  | state, [] => (state, [])
  | state, op :: ops =>
      let r := runOp battery_threshold state op
      let r2 := runOps battery_threshold r.1 ops
      (r2.1, r.2 ++ r2.2)

/-- Number of `job.assigned` events published for a given job id. -/
def countEvents (job_id : String) (evs : List AssignedEvent) : ℕ :=
  (evs.filter (fun e => decide (e.job_id = job_id))).length

/-- Correctness envelope of an emitting operation: `assigned_jobs` only
grows, a job already in `assigned_jobs` is never re-published, at most one
event per job id is published, and a published job id lands in
`assigned_jobs`. -/
def EmitOk (s s' : RunState) (evs : List AssignedEvent) : Prop :=
  ∀ x : String,
    (x ∈ s.assigned_jobs → x ∈ s'.assigned_jobs) ∧
    countEvents x evs ≤ (if x ∈ s.assigned_jobs then 0 else 1) ∧
    (1 ≤ countEvents x evs → x ∈ s'.assigned_jobs)

end Dispatcher

/-! ## services/sim-runner-py/app/sim/world.py and settings.py -/

namespace World

/-- Model of `DEFAULT_SCALE_MAP` (`settings.py`): preset name to
`(robot count, job count)`. -/
def DEFAULT_SCALE_MAP : List (String × ℕ × ℕ) :=
  [("mini", 5, 5), ("small", 5, 25), ("demo", 10, 50), ("large", 20, 100)]

/-- Model of `_build_scale_map` (`settings.py`): the optional joint
`FLEET_ROBOTS`/`FLEET_JOBS` override replaces the counts of every preset
and never changes the key set. -/
def build_scale_map (robots_env jobs_env : ℤ) : List (String × ℕ × ℕ) :=
  if robots_env > 0 ∧ jobs_env > 0 then
    DEFAULT_SCALE_MAP.map (fun p => (p.1, robots_env.toNat, jobs_env.toNat))
  else DEFAULT_SCALE_MAP

/-- The robot-generation loop of `generate_scenario` (`world.py`, lines
41-52); `idx` runs from 1 and each robot draws x, y then speed. -/
noncomputable def genRobots {σ : Type} (R : PyRng σ)
    (robot_speed_min robot_speed_max : ℝ) (world_size : ℤ) :
    ℕ → ℕ → σ → List Engine.Robot × σ
  | 0, _, s => ([], s)
  | n + 1, idx, s =>
      let px := R.uniform 0 (world_size : ℝ) s
      let py := R.uniform 0 (world_size : ℝ) px.2
      let sp := R.uniform robot_speed_min robot_speed_max py.2
      let robot : Engine.Robot :=
        { id := (idx : ℤ), x := Engine.round3 px.1, y := Engine.round3 py.1,
          speed := Engine.round3 sp.1, battery := 100, state := "idle" }
      let rest := genRobots R robot_speed_min robot_speed_max world_size n
        (idx + 1) sp.2
      (robot :: rest.1, rest.2)

/-- The job-generation loop of `generate_scenario` (`world.py`, lines
54-73); `jdx` runs from 1, each job draws the four coordinates, the
deadline offset and the priority. -/
noncomputable def genJobs {σ : Type} (R : PyRng σ) (world_size : ℤ) :
    ℕ → ℕ → σ → List Engine.Job × σ
  | 0, _, s => ([], s)
  | n + 1, jdx, s =>
      let p1 := R.uniform 0 (world_size : ℝ) s
      let p2 := R.uniform 0 (world_size : ℝ) p1.2
      let p3 := R.uniform 0 (world_size : ℝ) p2.2
      let p4 := R.uniform 0 (world_size : ℝ) p3.2
      let dl := R.randint 0 20 p4.2
      let pr := R.randint 1 5 dl.2
      let job : Engine.Job :=
        { id := "job_" ++ toString jdx, pickup_x := Engine.round3 p1.1,
          pickup_y := Engine.round3 p2.1, dropoff_x := Engine.round3 p3.1,
          dropoff_y := Engine.round3 p4.1,
          deadline_ts := 120 + (jdx : ℤ) * 12 + dl.1, priority := pr.1,
          state := "pending", created_sim_ts := 0 }
      let rest := genJobs R world_size n (jdx + 1) pr.2
      (job :: rest.1, rest.2)

/-- Model of `generate_scenario` (`world.py`): validate, then generate robots and
jobs deterministically from the seeded generator.  The SHA-256
`scenario_hash` of the canonical JSON encoding is not modelled (hashing);
the returned value carries the generated entity lists. -/
noncomputable def generate_scenario {σ : Type} (R : PyRng σ)
    (robot_speed_min robot_speed_max : ℝ)
    (scale_map : List (String × ℕ × ℕ)) (seed : ℤ) (scale : String)
    (world_size : ℤ) (robots_override jobs_override : Option ℤ) :
    Except String (List Engine.Robot × List Engine.Job) :=
  match scale_map.lookup scale with
  | none => Except.error ("invalid scale: " ++ scale)
  | some cfg =>
      if robots_override.isSome ≠ jobs_override.isSome then
        Except.error "robots_override and jobs_override must be provided together"
      else if robots_override.any (fun v => v ≤ 0) then
        Except.error "robots_override must be > 0"
      else if jobs_override.any (fun v => v ≤ 0) then
        Except.error "jobs_override must be > 0"
      else
        let robots_count : ℕ :=
          match robots_override with
          | some v => v.toNat
          | none => cfg.1
        let jobs_count : ℕ :=
          match jobs_override with
          | some v => v.toNat
          | none => cfg.2
        let s0 := R.init seed
        let rr := genRobots R robot_speed_min robot_speed_max world_size
          robots_count 1 s0
        let jj := genJobs R world_size jobs_count 1 rr.2
        Except.ok (rr.1, jj.1)

end World

namespace GA

/-- Spec-side robot snapshot for the fitness refinement: the per-robot
`(time, pos, battery, count)` tuple of §4.2 of the specification. -/
structure RobotSnap where
  time : ℝ
  pos : ℝ × ℝ
  battery : ℝ
  count : ℕ

instance : Inhabited RobotSnap := ⟨⟨0, (0, 0), 0, 0⟩⟩

/-- Modelled from the spec (§4.2): the per-job penalty formula
`1000 * lateness + 2 * travel + 3 * (6 - priority) + battery_penalty +
load_penalty` with `lateness = max(0, time + travel / max(speed, 0.1) +
2 * service - deadline)`, `battery_after = battery - 0.1 * travel`,
battery penalty `500 + 100*|battery_after|` below 0 and `200` below 10,
and load penalty `30 * count^2`. -/
noncomputable def specJobScore (speed : ℝ) (s : RobotSnap) (job : Job)
    (service_time_s : ℤ) : ℝ :=
  let travel := distanceHelper s.pos.1 s.pos.2 job.pickup_x job.pickup_y
    + distanceHelper job.pickup_x job.pickup_y job.dropoff_x job.dropoff_y
  let lateness := max 0 (s.time + travel / max speed 0.1
    + 2 * (service_time_s : ℝ) - (job.deadline_ts : ℝ))
  let battery_after := s.battery - 0.1 * travel
  let battery_penalty : ℝ :=
    if battery_after < 0 then 500 + 100 * |battery_after|
    else if battery_after < 10 then 200 else 0
  let load_penalty : ℝ := 30 * (s.count : ℝ) ^ 2
  1000 * lateness + 2 * travel + 3 * ((6 : ℝ) - (job.priority : ℝ))
    + battery_penalty + load_penalty

/-- Modelled from the spec (§4.2): after a job the robot's time advances
to the completion time, its position becomes the dropoff, its battery is
clamped at zero from below and its job count increments. -/
noncomputable def specUpdate (speed : ℝ) (s : RobotSnap) (job : Job)
    (service_time_s : ℤ) : RobotSnap :=
  let travel := distanceHelper s.pos.1 s.pos.2 job.pickup_x job.pickup_y
    + distanceHelper job.pickup_x job.pickup_y job.dropoff_x job.dropoff_y
  { time := s.time + travel / max speed 0.1 + 2 * (service_time_s : ℝ)
    pos := (job.dropoff_x, job.dropoff_y)
    battery := max 0 (s.battery - 0.1 * travel)
    count := s.count + 1 }

/-- Spec-side initial snapshots: time 0, starting position, full battery
count 0. -/
def specInit (robots : List Robot) : List RobotSnap :=
  robots.map (fun r => ⟨0, (r.x, r.y), r.battery, 0⟩)

/-- Spec-side evaluation: iterate the sorted jobs, score each against the
selected robot snapshot and fold the update. -/
noncomputable def specEval (chromosome : List ℕ) (robots : List Robot)
    (service_time_s : ℤ) : List Job → ℕ → List RobotSnap → ℝ
  | [], _, _ => 0
  | job :: rest, idx, snaps =>
      let k := chromosome.getD idx 0 % robots.length
      let s := snaps.getD k default
      let speed := (robots.getD k default).speed
      specJobScore speed s job service_time_s
        + specEval chromosome robots service_time_s rest (idx + 1)
            (snaps.set k (specUpdate speed s job service_time_s))

/-- Correspondence between the source's parallel per-robot arrays and the
spec-side snapshot list (one snapshot per robot). -/
def Corr (robots : List Robot) (st : EvalSt) (snaps : List RobotSnap) : Prop :=
  snaps.length = robots.length ∧
  st.robot_time = snaps.map (fun s => s.time) ∧
  st.robot_pos = snaps.map (fun s => s.pos) ∧
  st.robot_battery = snaps.map (fun s => s.battery) ∧
  st.robot_job_count = snaps.map (fun s => s.count)

end GA

end AMR

/-! ### Generic facts about the stable-sort model and helpers -/

namespace AMR

theorem insertBy_perm {α : Type} (lt : α → α → Bool) (x : α) :
    ∀ l : List α, List.Perm (insertBy lt x l) (x :: l) := by
  intro l
  induction l with
  | nil => simp [insertBy]
  | cons y l ih =>
      by_cases h : lt x y = true
      · simp [insertBy, h]
      · simp only [insertBy, h, if_false]
        exact (List.Perm.cons y ih).trans (List.Perm.swap x y l)

theorem sortBy_perm {α : Type} (lt : α → α → Bool) (l : List α) :
    List.Perm (sortBy lt l) l := by
  suffices h : ∀ acc : List α,
      List.Perm (l.foldl (fun acc x => insertBy lt x acc) acc) (acc ++ l) by
    simpa [sortBy] using h []
  induction l with
  | nil => intro acc; simp
  | cons x l ih =>
      intro acc
      simp only [List.foldl_cons]
      exact (ih _).trans
        (((insertBy_perm lt x acc).append_right l).trans List.perm_middle.symm)

theorem mem_sortBy {α : Type} {lt : α → α → Bool} {x : α} {l : List α} :
    x ∈ sortBy lt l ↔ x ∈ l :=
  (sortBy_perm lt l).mem_iff

theorem insertBy_pairwise {α β : Type} [LinearOrder β] (key : α → β) (x : α)
    (l : List α) (h : l.Pairwise fun a b => key a ≤ key b) :
    (insertBy (keyLt key) x l).Pairwise fun a b => key a ≤ key b := by
  induction l with
  | nil => simp [insertBy]
  | cons y l ih =>
      rcases List.pairwise_cons.1 h with ⟨hy, hl⟩
      by_cases hxy : keyLt key x y = true
      · have hlt : key x < key y := by
          simpa [keyLt, decide_eq_true_eq] using hxy
        simp only [insertBy, hxy, if_true]
        refine List.pairwise_cons.2 ⟨?_, h⟩
        intro z hz
        rcases List.mem_cons.1 hz with rfl | hz
        · exact hlt.le
        · exact hlt.le.trans (hy _ hz)
      · have hle : key y ≤ key x := by
          have h2 : ¬ key x < key y := by
            simpa [keyLt, decide_eq_true_eq] using hxy
          exact le_of_not_lt h2
        simp only [insertBy, hxy, if_false]
        refine List.pairwise_cons.2 ⟨?_, ih hl⟩
        intro z hz
        rcases List.mem_cons.1 ((insertBy_perm (keyLt key) x l).mem_iff.1 hz)
          with rfl | h3
        · exact hle
        · exact hy _ h3

theorem sortBy_pairwise {α β : Type} [LinearOrder β] (key : α → β)
    (l : List α) :
    (sortBy (keyLt key) l).Pairwise fun a b => key a ≤ key b := by
  suffices h : ∀ acc : List α, (acc.Pairwise fun a b => key a ≤ key b) →
      (l.foldl (fun acc x => insertBy (keyLt key) x acc) acc).Pairwise
        fun a b => key a ≤ key b by
    exact h [] (by simp)
  induction l with
  | nil => intro acc hacc; simpa using hacc
  | cons x l ih =>
      intro acc hacc
      exact ih _ (insertBy_pairwise key x acc hacc)

namespace Baseline

theorem setAdd_mem {α : Type} [DecidableEq α] {s : List α} {x y : α} :
    y ∈ setAdd s x ↔ y ∈ s ∨ y = x := by
  by_cases h : x ∈ s
  · simp only [setAdd, if_pos h]
    constructor
    · exact fun hy => Or.inl hy
    · rintro (hy | rfl) <;> assumption
  · simp [setAdd, if_neg h]

theorem selectBest_not_used (job : DJob) (used : List ℤ) :
    ∀ (robots : List DRobot) (best : Option (DRobot × ℝ)),
      (∀ p : DRobot × ℝ, best = some p → p.1.id ∉ used) →
      ∀ r, selectBest job used robots best = some r → r.id ∉ used := by
  intro robots
  induction robots with
  | nil =>
      intro best hbest r hr
      cases best with
      | none => simp [selectBest] at hr
      | some p =>
          simp only [selectBest, Option.map_some] at hr
          cases hr
          exact hbest p rfl
  | cons robot rest ih =>
      intro best hbest r hr
      by_cases hmem : robot.id ∈ used
      · rw [selectBest, if_pos hmem] at hr
        exact ih best hbest r hr
      · rw [selectBest, if_neg hmem] at hr
        cases best with
        | none =>
            refine ih _ ?_ r hr
            rintro p hp
            cases hp
            exact hmem
        | some p =>
            dsimp only [] at hr
            by_cases hcond : distanceHelper robot.x robot.y job.pickup_x
                job.pickup_y < p.2 ∨
                (distanceHelper robot.x robot.y job.pickup_x job.pickup_y
                  = p.2 ∧ robot.id < p.1.id)
            · rw [if_pos hcond] at hr
              refine ih _ ?_ r hr
              rintro q hq
              cases hq
              exact hmem
            · rw [if_neg hcond] at hr
              refine ih _ ?_ r hr
              rintro q hq
              cases hq
              exact hbest p rfl

theorem assignLoop_reason :
    ∀ (jobs : List DJob) (robots : List DRobot) (used : List ℤ)
      (acc : List BAssignment),
      (∀ a ∈ acc, a.reason = "baseline_edf_nearest") →
      ∀ a ∈ assignLoop jobs robots used acc, a.reason = "baseline_edf_nearest" := by
  intro jobs
  induction jobs with
  | nil => intro robots used acc hacc a ha; exact hacc a ha
  | cons job rest ih =>
      intro robots used acc hacc a ha
      rw [assignLoop] at ha
      cases hsel : selectBest job used robots none with
      | none => rw [hsel] at ha; exact ih robots used acc hacc a ha
      | some best_robot =>
          rw [hsel] at ha
          refine ih robots _ _ ?_ a ha
          intro b hb
          rcases List.mem_append.1 hb with hb | hb
          · exact hacc b hb
          · rcases List.mem_singleton.1 hb with rfl
            rfl

theorem assignLoop_nodup :
    ∀ (jobs : List DJob) (robots : List DRobot) (used : List ℤ)
      (acc : List BAssignment),
      (acc.map BAssignment.robot_id).Nodup →
      (∀ a ∈ acc, a.robot_id ∈ used) →
      ((assignLoop jobs robots used acc).map BAssignment.robot_id).Nodup := by
  intro jobs
  induction jobs with
  | nil => intro robots used acc h1 _; exact h1
  | cons job rest ih =>
      intro robots used acc h1 h2
      rw [assignLoop]
      cases hsel : selectBest job used robots none with
      | none => exact ih robots used acc h1 h2
      | some best_robot =>
          have hnot : best_robot.id ∉ used :=
            selectBest_not_used job used robots none (by rintro p ⟨⟩)
              best_robot hsel
          refine ih robots _ _ ?_ ?_
          · rw [List.map_append]
            refine List.Nodup.append h1 (by simp) ?_
            intro x hx hy
            rcases List.mem_map.1 hx with ⟨a, ha, rfl⟩
            simp only [List.map_cons, List.map_nil, List.mem_singleton] at hy
            exact hnot (hy ▸ h2 a ha)
          · intro b hb
            rcases List.mem_append.1 hb with hb | hb
            · exact setAdd_mem.2 (Or.inl (h2 b hb))
            · rcases List.mem_singleton.1 hb with rfl
              exact setAdd_mem.2 (Or.inr rfl)

end Baseline

end AMR

namespace AMR.Baseline

theorem pendingJobsFilter_concrete1 :
    pendingJobsFilter []
        [⟨"j1", 1, 1, 2, 2, 10, 3, "pending"⟩,
         ⟨"j2", 9, 9, 8, 8, 20, 2, "pending"⟩]
      = [⟨"j1", 1, 1, 2, 2, 10, 3, "pending"⟩,
         ⟨"j2", 9, 9, 8, 8, 20, 2, "pending"⟩] := by
  simp [pendingJobsFilter]

theorem idleRobotsFilter_concrete1 :
    idleRobotsFilter [] 20
        [⟨1, 0, 0, 1, 80, "idle", none⟩, ⟨2, 10, 10, 1, 80, "idle", none⟩]
      = [⟨1, 0, 0, 1, 80, "idle", none⟩, ⟨2, 10, 10, 1, 80, "idle", none⟩] := by
  norm_num [idleRobotsFilter]

theorem selectBest_concrete1 :
    selectBest ⟨"j1", 1, 1, 2, 2, 10, 3, "pending"⟩ []
        [⟨1, 0, 0, 1, 80, "idle", none⟩, ⟨2, 10, 10, 1, 80, "idle", none⟩] none
      = some ⟨1, 0, 0, 1, 80, "idle", none⟩ := by
  have hs : Real.sqrt 2 < Real.sqrt 162 := by
    apply Real.sqrt_lt_sqrt <;> norm_num
  have hd1 : distanceHelper 0 0 1 1 = Real.sqrt 2 := by
    norm_num [distanceHelper]
  have hd2 : distanceHelper 10 10 1 1 = Real.sqrt 162 := by
    norm_num [distanceHelper]
  have hlt : ¬ distanceHelper 10 10 1 1 < distanceHelper 0 0 1 1 := by
    rw [hd1, hd2]; exact not_lt.2 hs.le
  have heq : ¬ distanceHelper 10 10 1 1 = distanceHelper 0 0 1 1 := by
    rw [hd1, hd2]; exact hs.ne'
  simp [selectBest, hlt, heq]

theorem selectBest_concrete2 :
    selectBest ⟨"j2", 9, 9, 8, 8, 20, 2, "pending"⟩ [1]
        [⟨1, 0, 0, 1, 80, "idle", none⟩, ⟨2, 10, 10, 1, 80, "idle", none⟩] none
      = some ⟨2, 10, 10, 1, 80, "idle", none⟩ := by
  simp [selectBest]

end AMR.Baseline

/-- C3: `compute_baseline_assignments` implements EDF + nearest-idle-robot:
every returned assignment carries reason `baseline_edf_nearest`, the result
is sorted by `(job_id, robot_id)`, each candidate robot is used at most
once, and on the concrete scenario of the claim (idle robots at `(0,0)` and
`(10,10)`, jobs `j1 (pickup (1,1), deadline 10, prio 3)` and
`j2 (pickup (9,9), deadline 20, prio 2)`, threshold 20, nothing blocked)
the result is `[{j1 -> robot 1}, {j2 -> robot 2}]`. -/
theorem compute_baseline_assignments_contract :
    (∀ (robots : List AMR.Baseline.DRobot) (jobs : List AMR.Baseline.DJob)
       (already_assigned : List String) (blocked_robots : List ℤ)
       (battery_threshold : ℝ),
       (∀ a ∈ AMR.Baseline.compute_baseline_assignments robots jobs
           already_assigned blocked_robots battery_threshold,
         a.reason = "baseline_edf_nearest") ∧
       (AMR.Baseline.compute_baseline_assignments robots jobs already_assigned
           blocked_robots battery_threshold).Pairwise
         (fun a b => AMR.Baseline.assignmentKey a ≤ AMR.Baseline.assignmentKey b) ∧
       ((AMR.Baseline.compute_baseline_assignments robots jobs already_assigned
           blocked_robots battery_threshold).map
         AMR.Baseline.BAssignment.robot_id).Nodup) ∧
    AMR.Baseline.compute_baseline_assignments
        [⟨1, 0, 0, 1, 80, "idle", none⟩, ⟨2, 10, 10, 1, 80, "idle", none⟩]
        [⟨"j1", 1, 1, 2, 2, 10, 3, "pending"⟩,
         ⟨"j2", 9, 9, 8, 8, 20, 2, "pending"⟩]
        [] [] 20
      = [⟨"j1", 1, "baseline_edf_nearest"⟩, ⟨"j2", 2, "baseline_edf_nearest"⟩] := by
  constructor
  · intro robots jobs already_assigned blocked_robots battery_threshold
    refine ⟨?_, ?_, ?_⟩
    · intro a ha
      exact AMR.Baseline.assignLoop_reason _ _ _ _ (by simp) a
        (AMR.mem_sortBy.1 ha)
    · exact AMR.sortBy_pairwise AMR.Baseline.assignmentKey _
    · exact ((AMR.sortBy_perm _ _).map AMR.Baseline.BAssignment.robot_id).nodup_iff.2
        (AMR.Baseline.assignLoop_nodup _ _ _ _ (by simp) (by simp))
  · have h_pending := AMR.Baseline.pendingJobsFilter_concrete1
    have h_idle := AMR.Baseline.idleRobotsFilter_concrete1
    have h_cand : AMR.Baseline.candidateRobots
        [⟨1, 0, 0, 1, 80, "idle", none⟩, ⟨2, 10, 10, 1, 80, "idle", none⟩] [] 20
        [⟨"j1", 1, 1, 2, 2, 10, 3, "pending"⟩,
         ⟨"j2", 9, 9, 8, 8, 20, 2, "pending"⟩]
        = [⟨1, 0, 0, 1, 80, "idle", none⟩, ⟨2, 10, 10, 1, 80, "idle", none⟩] := by
      simp [AMR.Baseline.candidateRobots, h_idle]
    have h_jsort : AMR.sortBy (AMR.keyLt AMR.Baseline.jobKey)
        [⟨"j1", 1, 1, 2, 2, 10, 3, "pending"⟩,
         ⟨"j2", 9, 9, 8, 8, 20, 2, "pending"⟩]
        = [⟨"j1", 1, 1, 2, 2, 10, 3, "pending"⟩,
           ⟨"j2", 9, 9, 8, 8, 20, 2, "pending"⟩] := by
      norm_num [AMR.sortBy, AMR.insertBy, AMR.keyLt, AMR.Baseline.jobKey,
        Prod.Lex.lt_iff]
    have h_rsort : AMR.sortBy (AMR.keyLt (fun r : AMR.Baseline.DRobot => r.id))
        [⟨1, 0, 0, 1, 80, "idle", none⟩, ⟨2, 10, 10, 1, 80, "idle", none⟩]
        = [⟨1, 0, 0, 1, 80, "idle", none⟩, ⟨2, 10, 10, 1, 80, "idle", none⟩] := by
      norm_num [AMR.sortBy, AMR.insertBy, AMR.keyLt]
    have h_loop : AMR.Baseline.assignLoop
        [⟨"j1", 1, 1, 2, 2, 10, 3, "pending"⟩,
         ⟨"j2", 9, 9, 8, 8, 20, 2, "pending"⟩]
        [⟨1, 0, 0, 1, 80, "idle", none⟩, ⟨2, 10, 10, 1, 80, "idle", none⟩]
        [] []
        = [⟨"j1", 1, "baseline_edf_nearest"⟩,
           ⟨"j2", 2, "baseline_edf_nearest"⟩] := by
      simp [AMR.Baseline.assignLoop, AMR.Baseline.selectBest_concrete1,
        AMR.Baseline.selectBest_concrete2, AMR.setAdd]
    have hstr : ¬ ("j2" : String) < "j1" := by
      rw [String.lt_iff_toList_lt]; decide
    have hne : ("j2" : String) ≠ "j1" := by decide
    have h_fsort : AMR.sortBy (AMR.keyLt AMR.Baseline.assignmentKey)
        [⟨"j1", 1, "baseline_edf_nearest"⟩, ⟨"j2", 2, "baseline_edf_nearest"⟩]
        = [⟨"j1", 1, "baseline_edf_nearest"⟩,
           ⟨"j2", 2, "baseline_edf_nearest"⟩] := by
      simp [AMR.sortBy, AMR.insertBy, AMR.keyLt, AMR.Baseline.assignmentKey,
        Prod.Lex.lt_iff, hstr, hne]
    unfold AMR.Baseline.compute_baseline_assignments
    rw [h_pending, h_cand, h_jsort, h_rsort, h_loop, h_fsort]

/-- Witness for C3: the concrete tie-break scenario evaluated through the
theorem. -/
theorem compute_baseline_assignments_contract_witness :
    AMR.Baseline.compute_baseline_assignments
        [⟨1, 0, 0, 1, 80, "idle", none⟩, ⟨2, 10, 10, 1, 80, "idle", none⟩]
        [⟨"j1", 1, 1, 2, 2, 10, 3, "pending"⟩,
         ⟨"j2", 9, 9, 8, 8, 20, 2, "pending"⟩]
        [] [] 20
      = [⟨"j1", 1, "baseline_edf_nearest"⟩, ⟨"j2", 2, "baseline_edf_nearest"⟩] :=
  compute_baseline_assignments_contract.2

/-- C7: when the battery filter leaves no candidate robot while pending
jobs exist, the candidate set is rebuilt from all idle, unblocked robots
with the battery filter dropped (idle and blocked filters kept); and on
the concrete scenario of the claim (single idle robot with battery 5 at
`(0,0)`, one pending job with pickup `(1,1)`, threshold 20) exactly that
job is assigned to that robot. -/
theorem baseline_battery_fallback :
    (∀ (robots : List AMR.Baseline.DRobot) (jobs : List AMR.Baseline.DJob)
       (already_assigned : List String) (blocked_robots : List ℤ)
       (battery_threshold : ℝ),
       AMR.Baseline.idleRobotsFilter blocked_robots battery_threshold robots
           = [] →
       AMR.Baseline.pendingJobsFilter already_assigned jobs ≠ [] →
       AMR.Baseline.compute_baseline_assignments robots jobs already_assigned
           blocked_robots battery_threshold
         = AMR.sortBy (AMR.keyLt AMR.Baseline.assignmentKey)
             (AMR.Baseline.assignLoop
               (AMR.sortBy (AMR.keyLt AMR.Baseline.jobKey)
                 (AMR.Baseline.pendingJobsFilter already_assigned jobs))
               (AMR.sortBy (AMR.keyLt (fun r : AMR.Baseline.DRobot => r.id))
                 (AMR.Baseline.idleRobotsNoBattery blocked_robots robots))
               [] [])) ∧
    AMR.Baseline.compute_baseline_assignments
        [⟨1, 0, 0, 1, 5, "idle", none⟩]
        [⟨"job_1", 1, 1, 2, 2, 10, 1, "pending"⟩]
        [] [] 20
      = [⟨"job_1", 1, "baseline_edf_nearest"⟩] := by
  have hgen : ∀ (robots : List AMR.Baseline.DRobot)
      (jobs : List AMR.Baseline.DJob) (already_assigned : List String)
      (blocked_robots : List ℤ) (battery_threshold : ℝ),
      AMR.Baseline.idleRobotsFilter blocked_robots battery_threshold robots
          = [] →
      AMR.Baseline.pendingJobsFilter already_assigned jobs ≠ [] →
      AMR.Baseline.compute_baseline_assignments robots jobs already_assigned
          blocked_robots battery_threshold
        = AMR.sortBy (AMR.keyLt AMR.Baseline.assignmentKey)
            (AMR.Baseline.assignLoop
              (AMR.sortBy (AMR.keyLt AMR.Baseline.jobKey)
                (AMR.Baseline.pendingJobsFilter already_assigned jobs))
              (AMR.sortBy (AMR.keyLt (fun r : AMR.Baseline.DRobot => r.id))
                (AMR.Baseline.idleRobotsNoBattery blocked_robots robots))
              [] []) := by
    intro robots jobs already_assigned blocked_robots battery_threshold h1 h2
    have h2' : (AMR.Baseline.pendingJobsFilter already_assigned jobs).isEmpty
        = false := by
      cases hp : AMR.Baseline.pendingJobsFilter already_assigned jobs with
      | nil => exact absurd hp h2
      | cons x xs => rfl
    unfold AMR.Baseline.compute_baseline_assignments
    unfold AMR.Baseline.candidateRobots
    rw [h1, h2']
    rfl
  refine ⟨hgen, ?_⟩
  have h_idle : AMR.Baseline.idleRobotsFilter [] 20
      [⟨1, 0, 0, 1, 5, "idle", none⟩] = [] := by
    norm_num [AMR.Baseline.idleRobotsFilter]
  have h_pending : AMR.Baseline.pendingJobsFilter []
      [⟨"job_1", 1, 1, 2, 2, 10, 1, "pending"⟩]
      = [⟨"job_1", 1, 1, 2, 2, 10, 1, "pending"⟩] := by
    simp [AMR.Baseline.pendingJobsFilter]
  rw [hgen _ _ _ _ _ h_idle (by rw [h_pending]; simp), h_pending]
  have h_fallback : AMR.Baseline.idleRobotsNoBattery []
      [⟨1, 0, 0, 1, 5, "idle", none⟩] = [⟨1, 0, 0, 1, 5, "idle", none⟩] := by
    simp [AMR.Baseline.idleRobotsNoBattery]
  rw [h_fallback]
  have h_sel : AMR.Baseline.selectBest ⟨"job_1", 1, 1, 2, 2, 10, 1, "pending"⟩
      [] [⟨1, 0, 0, 1, 5, "idle", none⟩] none
      = some ⟨1, 0, 0, 1, 5, "idle", none⟩ := by
    simp [AMR.Baseline.selectBest]
  simp [AMR.sortBy, AMR.insertBy, AMR.Baseline.assignLoop, h_sel]

/-- Witness for C7: the general fallback equation applied at the concrete
low-battery scenario, with both hypotheses discharged there. -/
theorem baseline_battery_fallback_witness :
    AMR.Baseline.compute_baseline_assignments
        [⟨1, 0, 0, 1, 5, "idle", none⟩]
        [⟨"job_1", 1, 1, 2, 2, 10, 1, "pending"⟩]
        [] [] 20
      = AMR.sortBy (AMR.keyLt AMR.Baseline.assignmentKey)
          (AMR.Baseline.assignLoop
            (AMR.sortBy (AMR.keyLt AMR.Baseline.jobKey)
              (AMR.Baseline.pendingJobsFilter []
                [⟨"job_1", 1, 1, 2, 2, 10, 1, "pending"⟩]))
            (AMR.sortBy (AMR.keyLt (fun r : AMR.Baseline.DRobot => r.id))
              (AMR.Baseline.idleRobotsNoBattery []
                [⟨1, 0, 0, 1, 5, "idle", none⟩]))
            [] []) :=
  baseline_battery_fallback.1
    [⟨1, 0, 0, 1, 5, "idle", none⟩]
    [⟨"job_1", 1, 1, 2, 2, 10, 1, "pending"⟩]
    [] [] 20
    (by norm_num [AMR.Baseline.idleRobotsFilter])
    (by simp [AMR.Baseline.pendingJobsFilter])

namespace AMR.Engine

theorem find?_update {α κ : Type} [DecidableEq κ] (key : α → κ) (k : κ)
    (l : List α) (a' x : α)
    (h : l.find? (fun r => decide (key r = k)) = some x) (hid : key a' = k) :
    (l.map (fun r => if key r = key a' then a' else r)).find?
      (fun r => decide (key r = k)) = some a' := by
  induction l with
  | nil => simp at h
  | cons y ys ih =>
      by_cases hy : key y = k
      · have h1 : key y = key a' := by rw [hy, hid]
        rw [List.map_cons, if_pos h1]
        exact List.find?_cons_of_pos _ (by simp [hid])
      · have h1 : ¬ key y = key a' := fun hc => hy (hid ▸ hc)
        rw [List.find?_cons_of_neg _ (by simp [hy])] at h
        rw [List.map_cons, if_neg h1, List.find?_cons_of_neg _ (by simp [hy])]
        exact ih h

theorem getRobot_id {s : EngineState} {rid : ℤ} {robot : Robot}
    (h : getRobot s rid = some robot) : robot.id = rid := by
  have := List.find?_some h
  simpa using this

theorem getJob_id {jobs : List Job} {jid : String} {job : Job}
    (h : getJob jobs jid = some job) : job.id = jid := by
  have := List.find?_some h
  simpa using this

theorem getRobot_mem {s : EngineState} {rid : ℤ} {robot : Robot}
    (h : getRobot s rid = some robot) : robot ∈ s.robots :=
  List.mem_of_find?_eq_some h

theorem mem_setRobot {robots : List Robot} {r' x : Robot}
    (h : x ∈ setRobot robots r') : x ∈ robots ∨ x = r' := by
  rcases List.mem_map.1 h with ⟨r, hr, hx⟩
  by_cases hid : r.id = r'.id
  · right; rw [← hx, if_pos hid]
  · left; rwa [← hx, if_neg hid]

theorem emitRobotUpdated_jobs (s : EngineState) (robot : Robot)
    (sim_time_s : ℤ) (force : Bool) :
    (emitRobotUpdated s robot sim_time_s force).jobs = s.jobs := by
  unfold emitRobotUpdated
  by_cases hf : force = true
  · rw [if_pos hf]
  · rw [if_neg hf]
    cases hl : s.last_position_emit_sim_s.lookup robot.id with
    | none => rfl
    | some last_emit =>
        dsimp only []
        by_cases ht : sim_time_s ≤ last_emit
        · rw [if_pos ht]
        · rw [if_neg ht]

theorem emitRobotUpdated_robots (s : EngineState) (robot : Robot)
    (sim_time_s : ℤ) (force : Bool) :
    (emitRobotUpdated s robot sim_time_s force).robots = s.robots := by
  unfold emitRobotUpdated
  by_cases hf : force = true
  · rw [if_pos hf]
  · rw [if_neg hf]
    cases hl : s.last_position_emit_sim_s.lookup robot.id with
    | none => rfl
    | some last_emit =>
        dsimp only []
        by_cases ht : sim_time_s ≤ last_emit
        · rw [if_pos ht]
        · rw [if_neg ht]

end AMR.Engine

/-- C5: `apply_assignment` succeeds (returns `true`, sets the job state to
assigned with the robot recorded, sets the robot to `moving_to_pickup`
targeting the job's pickup, and emits exactly one forced `robot.updated`)
if and only if the named robot and job exist, the robot is idle and the
job is pending/unassigned; in every other case it returns `false` and
leaves the state unchanged, and applying the same assignment twice has the
same effect on the state as applying it once. -/
theorem apply_assignment_contract (cfg : AMR.Engine.EngineCfg)
    (s : AMR.Engine.EngineState) (a : AMR.Engine.Assignment) :
    ((AMR.Engine.apply_assignment cfg s a).1 = true ↔
      ((∃ robot, AMR.Engine.getRobot s a.robot_id = some robot ∧
          robot.state = "idle") ∧
       (∃ job, AMR.Engine.getJob s.jobs a.job_id = some job ∧
          (job.state = "pending" ∨ job.state = "unassigned")))) ∧
    ((AMR.Engine.apply_assignment cfg s a).1 = false →
      (AMR.Engine.apply_assignment cfg s a).2 = s) ∧
    ((AMR.Engine.apply_assignment cfg s a).1 = true →
      ∃ robot job, AMR.Engine.getRobot s a.robot_id = some robot ∧
        AMR.Engine.getJob s.jobs a.job_id = some job ∧
        AMR.Engine.getJob (AMR.Engine.apply_assignment cfg s a).2.jobs a.job_id
          = some { job with state := "assigned"
                            assigned_robot_id := some robot.id
                            started_sim_ts :=
                              some (AMR.Engine.currentSimTime cfg s) } ∧
        AMR.Engine.getRobot (AMR.Engine.apply_assignment cfg s a).2 a.robot_id
          = some { robot with current_job_id := some job.id
                              target_x := some job.pickup_x
                              target_y := some job.pickup_y
                              phase_remaining_s := 0
                              state := "moving_to_pickup" } ∧
        (AMR.Engine.apply_assignment cfg s a).2.events
          = s.events ++
            [AMR.Engine.robotPayload
              { robot with current_job_id := some job.id
                           target_x := some job.pickup_x
                           target_y := some job.pickup_y
                           phase_remaining_s := 0
                           state := "moving_to_pickup" }
              (AMR.Engine.currentSimTime cfg s)]) ∧
    (AMR.Engine.apply_assignment cfg
        (AMR.Engine.apply_assignment cfg s a).2 a).2
      = (AMR.Engine.apply_assignment cfg s a).2 := by
  cases hr : AMR.Engine.getRobot s a.robot_id with
  | none =>
      have hfail : AMR.Engine.apply_assignment cfg s a = (false, s) := by
        simp only [AMR.Engine.apply_assignment, hr]
      refine ⟨?_, ?_, ?_, ?_⟩
      · constructor
        · intro h
          rw [hfail] at h
          exact absurd h (by simp)
        · rintro ⟨⟨robot, hr2, -⟩, -⟩
          exact absurd hr2 (by simp)
      · intro _
        rw [hfail]
      · intro h
        rw [hfail] at h
        exact absurd h (by simp)
      · rw [hfail]
        show (AMR.Engine.apply_assignment cfg s a).2 = s
        rw [hfail]
  | some robot =>
      cases hj : AMR.Engine.getJob s.jobs a.job_id with
      | none =>
          have hfail : AMR.Engine.apply_assignment cfg s a = (false, s) := by
            simp only [AMR.Engine.apply_assignment, hr, hj]
          refine ⟨?_, ?_, ?_, ?_⟩
          · constructor
            · intro h
              rw [hfail] at h
              exact absurd h (by simp)
            · rintro ⟨-, ⟨job2, hj2, -⟩⟩
              exact absurd hj2 (by simp)
          · intro _
            rw [hfail]
          · intro h
            rw [hfail] at h
            exact absurd h (by simp)
          · rw [hfail]
            show (AMR.Engine.apply_assignment cfg s a).2 = s
            rw [hfail]
      | some job =>
          by_cases hidle : robot.state = "idle"
          · by_cases hpend : job.state = "pending" ∨ job.state = "unassigned"
            · have hsucc : AMR.Engine.apply_assignment cfg s a =
                  (true, AMR.Engine.emitRobotUpdated
                    { s with
                        jobs := AMR.Engine.setJob s.jobs
                          { job with state := "assigned"
                                     assigned_robot_id := some robot.id
                                     started_sim_ts :=
                                       some (AMR.Engine.currentSimTime cfg s) }
                        robots := AMR.Engine.setRobot s.robots
                          { robot with current_job_id := some job.id
                                       target_x := some job.pickup_x
                                       target_y := some job.pickup_y
                                       phase_remaining_s := 0
                                       state := "moving_to_pickup" } }
                    { robot with current_job_id := some job.id
                                 target_x := some job.pickup_x
                                 target_y := some job.pickup_y
                                 phase_remaining_s := 0
                                 state := "moving_to_pickup" }
                    (AMR.Engine.currentSimTime cfg s) true) := by
                simp only [AMR.Engine.apply_assignment, hr, hj]
                rw [if_neg (by simp [hidle]), if_neg (not_not_intro hpend)]
              refine ⟨?_, ?_, ?_, ?_⟩
              · constructor
                · intro _
                  exact ⟨⟨robot, rfl, hidle⟩, ⟨job, rfl, hpend⟩⟩
                · intro _
                  rw [hsucc]
              · intro h
                rw [hsucc] at h
                exact absurd h (by simp)
              · intro _
                refine ⟨robot, job, rfl, rfl, ?_, ?_, ?_⟩
                · rw [hsucc]
                  show AMR.Engine.getJob (AMR.Engine.emitRobotUpdated _ _ _ _).jobs
                      a.job_id = _
                  rw [AMR.Engine.emitRobotUpdated_jobs]
                  have := AMR.Engine.find?_update AMR.Engine.Job.id a.job_id
                    s.jobs
                    { job with state := "assigned"
                               assigned_robot_id := some robot.id
                               started_sim_ts :=
                                 some (AMR.Engine.currentSimTime cfg s) }
                    job hj (by simpa using AMR.Engine.getJob_id hj)
                  exact this
                · rw [hsucc]
                  show (AMR.Engine.emitRobotUpdated _ _ _ _).robots.find? _ = _
                  rw [AMR.Engine.emitRobotUpdated_robots]
                  have := AMR.Engine.find?_update AMR.Engine.Robot.id a.robot_id
                    s.robots
                    { robot with current_job_id := some job.id
                                 target_x := some job.pickup_x
                                 target_y := some job.pickup_y
                                 phase_remaining_s := 0
                                 state := "moving_to_pickup" }
                    robot hr (by simpa using AMR.Engine.getRobot_id hr)
                  exact this
                · rw [hsucc]
                  rfl
              · have hsecond : ∀ s2 : AMR.Engine.EngineState,
                    AMR.Engine.getRobot s2 a.robot_id = some
                      { robot with current_job_id := some job.id
                                   target_x := some job.pickup_x
                                   target_y := some job.pickup_y
                                   phase_remaining_s := 0
                                   state := "moving_to_pickup" } →
                    (AMR.Engine.apply_assignment cfg s2 a).2 = s2 := by
                  intro s2 hr2
                  simp only [AMR.Engine.apply_assignment, hr2]
                  cases hj2 : AMR.Engine.getJob s2.jobs a.job_id with
                  | none => rfl
                  | some j2 =>
                      dsimp only []
                      rw [if_pos (by decide)]
                refine hsecond _ ?_
                rw [hsucc]
                show (AMR.Engine.emitRobotUpdated _ _ _ _).robots.find? _ = _
                rw [AMR.Engine.emitRobotUpdated_robots]
                have := AMR.Engine.find?_update AMR.Engine.Robot.id a.robot_id
                  s.robots
                  { robot with current_job_id := some job.id
                               target_x := some job.pickup_x
                               target_y := some job.pickup_y
                               phase_remaining_s := 0
                               state := "moving_to_pickup" }
                  robot hr (by simpa using AMR.Engine.getRobot_id hr)
                exact this
            · have hfail : AMR.Engine.apply_assignment cfg s a = (false, s) := by
                simp only [AMR.Engine.apply_assignment, hr, hj]
                rw [if_neg (by simp [hidle]), if_pos (by exact hpend)]
              refine ⟨?_, ?_, ?_, ?_⟩
              · constructor
                · intro h
                  rw [hfail] at h
                  exact absurd h (by simp)
                · rintro ⟨-, ⟨job2, hj2, hpend2⟩⟩
                  simp only [Option.some.injEq] at hj2
                  subst hj2
                  exact (hpend hpend2).elim
              · intro _
                rw [hfail]
              · intro h
                rw [hfail] at h
                exact absurd h (by simp)
              · rw [hfail]
                show (AMR.Engine.apply_assignment cfg s a).2 = s
                rw [hfail]
          · have hfail : AMR.Engine.apply_assignment cfg s a = (false, s) := by
              simp only [AMR.Engine.apply_assignment, hr, hj]
              rw [if_pos (by simpa using hidle)]
            refine ⟨?_, ?_, ?_, ?_⟩
            · constructor
              · intro h
                rw [hfail] at h
                exact absurd h (by simp)
              · rintro ⟨⟨robot2, hr2, hidle2⟩, -⟩
                simp only [Option.some.injEq] at hr2
                subst hr2
                exact (hidle hidle2).elim
            · intro _
              rw [hfail]
            · intro h
              rw [hfail] at h
              exact absurd h (by simp)
            · rw [hfail]
              show (AMR.Engine.apply_assignment cfg s a).2 = s
              rw [hfail]

/-- Witness for C5: the contract applied at a concrete one-robot,
one-job state where the assignment succeeds. -/
theorem apply_assignment_contract_witness :
    (AMR.Engine.apply_assignment ⟨5, 5, 3600, true, 5, 20⟩
        ⟨"r", [{ id := 1, x := 0, y := 0, speed := 1, battery := 100 }],
         [{ id := "job_1", pickup_x := 1, pickup_y := 1, dropoff_x := 2,
            dropoff_y := 2, deadline_ts := 10, priority := 1 }],
         0, [], [], [], [], []⟩
        ⟨"job_1", 1⟩).1 = true :=
  (apply_assignment_contract ⟨5, 5, 3600, true, 5, 20⟩
      ⟨"r", [{ id := 1, x := 0, y := 0, speed := 1, battery := 100 }],
       [{ id := "job_1", pickup_x := 1, pickup_y := 1, dropoff_x := 2,
          dropoff_y := 2, deadline_ts := 10, priority := 1 }],
       0, [], [], [], [], []⟩
      ⟨"job_1", 1⟩).1.mpr
    ⟨⟨{ id := 1, x := 0, y := 0, speed := 1, battery := 100 },
      by simp [AMR.Engine.getRobot, List.find?], rfl⟩,
     ⟨{ id := "job_1", pickup_x := 1, pickup_y := 1, dropoff_x := 2,
        dropoff_y := 2, deadline_ts := 10, priority := 1 },
      by simp [AMR.Engine.getJob, List.find?], Or.inl rfl⟩⟩

namespace AMR.Engine

theorem dt_nonneg (cfg : EngineCfg) : 0 ≤ cfg.dt :=
  one_div_nonneg.2 (Nat.cast_nonneg _)

theorem arrivalPhase_battery (cfg : EngineCfg) (now : ℤ) (robot : Robot)
    (job : Job) (jobs : List Job) (resume : List (ℤ × String))
    (dropoff : List (ℤ × ℝ)) (d sd : ℝ) :
    (arrivalPhase cfg now robot job jobs resume dropoff d sd).1.battery
      = robot.battery := by
  unfold arrivalPhase
  split_ifs <;> first
  | rfl
  | (dsimp only []; split_ifs <;> rfl)

theorem arrivalPhase_speed (cfg : EngineCfg) (now : ℤ) (robot : Robot)
    (job : Job) (jobs : List Job) (resume : List (ℤ × String))
    (dropoff : List (ℤ × ℝ)) (d sd : ℝ) :
    (arrivalPhase cfg now robot job jobs resume dropoff d sd).1.speed
      = robot.speed := by
  unfold arrivalPhase
  split_ifs <;> first
  | rfl
  | (dsimp only []; split_ifs <;> rfl)

theorem advanceRobot_battery (cfg : EngineCfg) (now : ℤ) (robot : Robot)
    (jobs : List Job) (resume : List (ℤ × String)) (dropoff : List (ℤ × ℝ))
    (hb0 : 0 ≤ robot.battery) (hb100 : robot.battery ≤ 100)
    (hsp : 0 ≤ robot.speed) (hcr : 0 ≤ cfg.charge_rate) :
    (0 ≤ (advanceRobot cfg now robot jobs resume dropoff).1.battery ∧
      (advanceRobot cfg now robot jobs resume dropoff).1.battery ≤ 100) ∧
    (robot.state = "charging" →
      robot.battery ≤ (advanceRobot cfg now robot jobs resume dropoff).1.battery) ∧
    ((robot.state = "moving_to_pickup" ∨ robot.state = "moving_to_dropoff") →
      (advanceRobot cfg now robot jobs resume dropoff).1.battery
        ≤ robot.battery) ∧
    (advanceRobot cfg now robot jobs resume dropoff).1.speed = robot.speed := by
  by_cases hch : robot.state = "charging"
  · have hx : 0 ≤ cfg.charge_rate * cfg.dt :=
      mul_nonneg hcr (dt_nonneg cfg)
    have hmin0 : 0 ≤ min (100:ℝ) (robot.battery + cfg.charge_rate * cfg.dt) :=
      le_min (by norm_num) (add_nonneg hb0 hx)
    have hmin100 : min (100:ℝ) (robot.battery + cfg.charge_rate * cfg.dt)
        ≤ 100 := min_le_left _ _
    have hmono : robot.battery
        ≤ min (100:ℝ) (robot.battery + cfg.charge_rate * cfg.dt) :=
      le_min hb100 (le_add_of_nonneg_right hx)
    have hnotmv : ¬ (robot.state = "moving_to_pickup" ∨
        robot.state = "moving_to_dropoff") := by
      rintro (h | h) <;> rw [h] at hch <;> exact absurd hch (by decide)
    unfold advanceRobot
    rw [if_pos hch]
    dsimp only []
    by_cases hres : min (100:ℝ) (robot.battery + cfg.charge_rate * cfg.dt)
        ≥ cfg.charge_resume_threshold
    · rw [if_pos hres]
      exact ⟨⟨hmin0, hmin100⟩, fun _ => hmono,
        fun hmv => absurd hmv hnotmv, rfl⟩
    · rw [if_neg hres]
      exact ⟨⟨hmin0, hmin100⟩, fun _ => hmono,
        fun hmv => absurd hmv hnotmv, rfl⟩
  · by_cases hlow : robot.battery ≤ 0 ∧ (robot.state = "moving_to_pickup" ∨
        robot.state = "moving_to_dropoff")
    · unfold advanceRobot
      rw [if_neg hch, if_pos hlow]
      exact ⟨⟨hb0, hb100⟩, fun _ => le_refl _, fun _ => le_refl _, rfl⟩
    · by_cases hmv : robot.state = "moving_to_pickup" ∨
          robot.state = "moving_to_dropoff"
      · -- moving branch
        cases hjob : getJob jobs (robot.current_job_id.getD "") with
        | none =>
            unfold advanceRobot
            rw [if_neg hch, if_neg hlow, if_neg (not_not_intro hmv), hjob]
            exact ⟨⟨hb0, hb100⟩, fun _ => le_refl _, fun _ => le_refl _, rfl⟩
        | some job =>
            cases htx : robot.target_x with
            | none =>
                unfold advanceRobot
                rw [if_neg hch, if_neg hlow, if_neg (not_not_intro hmv), hjob,
                  htx]
                exact ⟨⟨hb0, hb100⟩, fun _ => le_refl _, fun _ => le_refl _,
                  rfl⟩
            | some tx =>
                cases hty : robot.target_y with
                | none =>
                    unfold advanceRobot
                    rw [if_neg hch, if_neg hlow, if_neg (not_not_intro hmv),
                      hjob, htx, hty]
                    exact ⟨⟨hb0, hb100⟩, fun _ => le_refl _,
                      fun _ => le_refl _, rfl⟩
                | some ty =>
                    unfold advanceRobot
                    rw [if_neg hch, if_neg hlow, if_neg (not_not_intro hmv),
                      hjob, htx, hty]
                    dsimp only []
                    have htrav : 0 ≤ min
                        (Real.sqrt ((tx - robot.x) ^ 2 + (ty - robot.y) ^ 2))
                        (robot.speed * cfg.dt) :=
                      le_min (Real.sqrt_nonneg _)
                        (mul_nonneg hsp (dt_nonneg cfg))
                    have hdec : 0 ≤ min
                        (Real.sqrt ((tx - robot.x) ^ 2 + (ty - robot.y) ^ 2))
                        (robot.speed * cfg.dt) * 0.1 :=
                      mul_nonneg htrav (by norm_num)
                    have hmax0 : (0:ℝ) ≤ max 0 (robot.battery -
                        min (Real.sqrt ((tx - robot.x) ^ 2 + (ty - robot.y) ^ 2))
                          (robot.speed * cfg.dt) * 0.1) := le_max_left _ _
                    have hmax100 : max 0 (robot.battery -
                        min (Real.sqrt ((tx - robot.x) ^ 2 + (ty - robot.y) ^ 2))
                          (robot.speed * cfg.dt) * 0.1) ≤ 100 :=
                      max_le (by norm_num)
                        (le_trans (sub_le_self _ hdec) hb100)
                    have hmaxmono : max 0 (robot.battery -
                        min (Real.sqrt ((tx - robot.x) ^ 2 + (ty - robot.y) ^ 2))
                          (robot.speed * cfg.dt) * 0.1) ≤ robot.battery :=
                      max_le hb0 (sub_le_self _ hdec)
                    by_cases hdist : Real.sqrt ((tx - robot.x) ^ 2 +
                        (ty - robot.y) ^ 2) > 0
                    · rw [if_pos hdist]
                      by_cases hb2 : max 0 (robot.battery -
                          min (Real.sqrt ((tx - robot.x) ^ 2 +
                            (ty - robot.y) ^ 2)) (robot.speed * cfg.dt) * 0.1)
                          ≤ 0
                      · rw [if_pos hb2]
                        exact ⟨⟨hmax0, hmax100⟩,
                          fun hc => absurd hc hch, fun _ => hmaxmono, rfl⟩
                      · rw [if_neg hb2]
                        rw [arrivalPhase_battery, arrivalPhase_speed]
                        exact ⟨⟨hmax0, hmax100⟩,
                          fun hc => absurd hc hch, fun _ => hmaxmono, rfl⟩
                    · rw [if_neg hdist]
                      rw [arrivalPhase_battery, arrivalPhase_speed]
                      exact ⟨⟨hb0, hb100⟩, fun _ => le_refl _,
                        fun _ => le_refl _, rfl⟩
      · -- neither charging, nor depleted-moving, nor moving: unchanged
        unfold advanceRobot
        rw [if_neg hch, if_neg hlow, if_pos (by exact hmv)]
        exact ⟨⟨hb0, hb100⟩, fun _ => le_refl _, fun _ => le_refl _, rfl⟩

theorem apply_assignment_robots (cfg : EngineCfg) (s : EngineState)
    (a : Assignment) :
    (apply_assignment cfg s a).2.robots = s.robots ∨
    ∃ robot job, getRobot s a.robot_id = some robot ∧
      getJob s.jobs a.job_id = some job ∧
      (apply_assignment cfg s a).2.robots = setRobot s.robots
        { robot with current_job_id := some job.id
                     target_x := some job.pickup_x
                     target_y := some job.pickup_y
                     phase_remaining_s := 0
                     state := "moving_to_pickup" } := by
  cases hr : getRobot s a.robot_id with
  | none =>
      left
      simp only [apply_assignment, hr]
  | some robot =>
      cases hj : getJob s.jobs a.job_id with
      | none =>
          left
          simp only [apply_assignment, hr, hj]
      | some job =>
          by_cases hidle : robot.state = "idle"
          · by_cases hpend : job.state = "pending" ∨ job.state = "unassigned"
            · right
              refine ⟨robot, job, rfl, rfl, ?_⟩
              simp only [apply_assignment, hr, hj]
              rw [if_neg (by simp [hidle]), if_neg (not_not_intro hpend)]
              show (emitRobotUpdated _ _ _ _).robots = _
              rw [emitRobotUpdated_robots]
            · left
              simp only [apply_assignment, hr, hj]
              rw [if_neg (by simp [hidle]), if_pos (by exact hpend)]
          · left
            simp only [apply_assignment, hr, hj]
            rw [if_pos (by simpa using hidle)]

theorem apply_assignment_battery (cfg : EngineCfg) (s : EngineState)
    (a : Assignment)
    (hs : ∀ r ∈ s.robots, 0 ≤ r.battery ∧ r.battery ≤ 100) :
    ∀ r' ∈ (apply_assignment cfg s a).2.robots,
      0 ≤ r'.battery ∧ r'.battery ≤ 100 := by
  intro r' hr'
  rcases apply_assignment_robots cfg s a with h | ⟨robot, job, hrob, -, h⟩
  · rw [h] at hr'
    exact hs r' hr'
  · rw [h] at hr'
    rcases mem_setRobot hr' with hmem | rfl
    · exact hs r' hmem
    · exact hs robot (getRobot_mem hrob)

theorem stepLoop_battery (cfg : EngineCfg) (now : ℤ)
    (hcr : 0 ≤ cfg.charge_rate) :
    ∀ (pending : List Robot) (s : EngineState),
      (∀ r ∈ s.robots, 0 ≤ r.battery ∧ r.battery ≤ 100 ∧ 0 ≤ r.speed) →
      (∀ r ∈ pending, 0 ≤ r.battery ∧ r.battery ≤ 100 ∧ 0 ≤ r.speed) →
      ∀ r' ∈ (stepLoop cfg now pending s).robots,
        0 ≤ r'.battery ∧ r'.battery ≤ 100 ∧ 0 ≤ r'.speed := by
  intro pending
  induction pending with
  | nil => intro s hs _ r' hr'; exact hs r' hr'
  | cons robot rest ih =>
      intro s hs hp r' hr'
      rw [stepLoop] at hr'
      refine ih _ ?_ (fun r hr => hp r (List.mem_cons_of_mem _ hr)) r' hr'
      have hrP := hp robot (List.mem_cons_self _ _)
      have hadv := advanceRobot_battery cfg now robot s.jobs s.resume_state
        s.dropoff_service_remaining hrP.1 hrP.2.1 hrP.2.2 hcr
      have hadvP : 0 ≤ (advanceRobot cfg now robot s.jobs s.resume_state
            s.dropoff_service_remaining).1.battery ∧
          (advanceRobot cfg now robot s.jobs s.resume_state
            s.dropoff_service_remaining).1.battery ≤ 100 ∧
          0 ≤ (advanceRobot cfg now robot s.jobs s.resume_state
            s.dropoff_service_remaining).1.speed := by
        refine ⟨hadv.1.1, hadv.1.2, ?_⟩
        rw [hadv.2.2.2]
        exact hrP.2.2
      intro r hrm
      by_cases hc1 : (advanceRobot cfg now robot s.jobs s.resume_state
          s.dropoff_service_remaining).1.state ≠ robot.state
      · rw [if_pos hc1] at hrm
        rw [emitRobotUpdated_robots] at hrm
        rcases mem_setRobot hrm with hmem | rfl
        · exact hs _ hmem
        · exact hadvP
      · rw [if_neg hc1] at hrm
        by_cases hc2 : cfg.emit_position_updates = true
        · rw [if_pos hc2] at hrm
          rw [emitRobotUpdated_robots] at hrm
          rcases mem_setRobot hrm with hmem | rfl
          · exact hs _ hmem
          · exact hadvP
        · rw [if_neg hc2] at hrm
          rcases mem_setRobot hrm with hmem | rfl
          · exact hs _ hmem
          · exact hadvP

end AMR.Engine

/-- C6: the battery stays within `[0, 100]`: a robot whose battery starts
in range is still in range after `apply_assignment` and after a full
engine tick (`step`); and within a single `_advance_robot` tick a charging
robot never decreases its battery while a moving robot never increases it
(under the physical side conditions: non-negative robot speed and
non-negative configured charge rate). -/
theorem battery_invariant :
    (∀ (cfg : AMR.Engine.EngineCfg) (now : ℤ) (robot : AMR.Engine.Robot)
       (jobs : List AMR.Engine.Job) (resume : List (ℤ × String))
       (dropoff : List (ℤ × ℝ)),
       0 ≤ robot.battery → robot.battery ≤ 100 → 0 ≤ robot.speed →
       0 ≤ cfg.charge_rate →
       (0 ≤ (AMR.Engine.advanceRobot cfg now robot jobs resume
            dropoff).1.battery ∧
        (AMR.Engine.advanceRobot cfg now robot jobs resume
            dropoff).1.battery ≤ 100) ∧
       (robot.state = "charging" →
         robot.battery ≤ (AMR.Engine.advanceRobot cfg now robot jobs resume
           dropoff).1.battery) ∧
       ((robot.state = "moving_to_pickup" ∨
           robot.state = "moving_to_dropoff") →
         (AMR.Engine.advanceRobot cfg now robot jobs resume
             dropoff).1.battery ≤ robot.battery)) ∧
    (∀ (cfg : AMR.Engine.EngineCfg) (s : AMR.Engine.EngineState)
       (a : AMR.Engine.Assignment),
       (∀ r ∈ s.robots, 0 ≤ r.battery ∧ r.battery ≤ 100) →
       ∀ r' ∈ (AMR.Engine.apply_assignment cfg s a).2.robots,
         0 ≤ r'.battery ∧ r'.battery ≤ 100) ∧
    (∀ (cfg : AMR.Engine.EngineCfg) (s : AMR.Engine.EngineState),
       0 ≤ cfg.charge_rate →
       (∀ r ∈ s.robots, 0 ≤ r.battery ∧ r.battery ≤ 100 ∧ 0 ≤ r.speed) →
       ∀ r' ∈ (AMR.Engine.step cfg s).robots,
         0 ≤ r'.battery ∧ r'.battery ≤ 100) := by
  refine ⟨?_, ?_, ?_⟩
  · intro cfg now robot jobs resume dropoff hb0 hb100 hsp hcr
    have h := AMR.Engine.advanceRobot_battery cfg now robot jobs resume
      dropoff hb0 hb100 hsp hcr
    exact ⟨h.1, h.2.1, h.2.2.1⟩
  · intro cfg s a hs
    exact AMR.Engine.apply_assignment_battery cfg s a hs
  · intro cfg s hcr hs r' hr'
    have hr2 : r' ∈ (AMR.Engine.stepLoop cfg (AMR.Engine.currentSimTime cfg s)
        (AMR.sortBy (AMR.keyLt (fun r : AMR.Engine.Robot => r.id)) s.robots)
        s).robots := hr'
    have h := AMR.Engine.stepLoop_battery cfg
      (AMR.Engine.currentSimTime cfg s) hcr
      (AMR.sortBy (AMR.keyLt (fun r : AMR.Engine.Robot => r.id)) s.robots) s
      hs (fun r hr => hs r (AMR.mem_sortBy.1 hr)) r' hr2
    exact ⟨h.1, h.2.1⟩

/-- Witness for C6: the per-tick monotonicity applied at a concrete
charging robot with all side conditions discharged. -/
theorem battery_invariant_witness :
    (50 : ℝ) ≤ (AMR.Engine.advanceRobot ⟨5, 5, 3600, true, 5, 20⟩ 0
        { id := 1, x := 0, y := 0, speed := 1, battery := 50,
          state := "charging" } [] [] []).1.battery :=
  (battery_invariant.1 ⟨5, 5, 3600, true, 5, 20⟩ 0
      { id := 1, x := 0, y := 0, speed := 1, battery := 50,
        state := "charging" } [] [] []
      (by norm_num) (by norm_num) (by norm_num) (by norm_num)).2.1 rfl

namespace AMR.Dispatcher

theorem countEvents_append (x : String) (e1 e2 : List AssignedEvent) :
    countEvents x (e1 ++ e2) = countEvents x e1 + countEvents x e2 := by
  simp [countEvents, List.filter_append]

theorem emitOk_nil (s : RunState) : EmitOk s s [] := by
  intro x
  refine ⟨id, ?_, ?_⟩
  · simp only [countEvents, List.filter_nil, List.length_nil]
    split <;> omega
  · intro h
    simp [countEvents] at h

theorem emitOk_comp {s1 s2 s3 : RunState} {e1 e2 : List AssignedEvent}
    (h1 : EmitOk s1 s2 e1) (h2 : EmitOk s2 s3 e2) :
    EmitOk s1 s3 (e1 ++ e2) := by
  intro x
  obtain ⟨m1, b1, t1⟩ := h1 x
  obtain ⟨m2, b2, t2⟩ := h2 x
  refine ⟨fun hx => m2 (m1 hx), ?_, ?_⟩
  · rw [countEvents_append]
    by_cases hx : x ∈ s1.assigned_jobs
    · have hx2 := m1 hx
      simp only [if_pos hx] at b1 ⊢
      simp only [if_pos hx2] at b2
      omega
    · simp only [if_neg hx] at b1 ⊢
      rcases Nat.lt_or_ge 0 (countEvents x e1) with hpos | hzero
      · have hx2 := t1 hpos
        simp only [if_pos hx2] at b2
        omega
      · have hz : countEvents x e1 = 0 := by omega
        have hb2 : countEvents x e2 ≤ 1 := by
          rcases le_or_lt (countEvents x e2)
            (if x ∈ s2.assigned_jobs then 0 else 1) with h | h
          · exact le_trans h (by split <;> omega)
          · exact absurd b2 (not_le.2 h)
        omega
  · rw [countEvents_append]
    intro h
    rcases Nat.lt_or_ge 0 (countEvents x e2) with hp2 | hz2
    · exact t2 hp2
    · have h1' : 1 ≤ countEvents x e1 := by omega
      exact m2 (t1 h1')

theorem lookup_map_overwrite {κ ν : Type} [DecidableEq κ] (k : κ) (v : ν) :
    ∀ d : List (κ × ν), d.any (fun p => decide (p.1 = k)) = true →
      (d.map (fun p => if p.1 = k then (k, v) else p)).lookup k = some v := by
  intro d
  induction d with
  | nil => intro h; simp at h
  | cons p rest ih =>
      intro h
      by_cases hp : p.1 = k
      · rw [List.map_cons, if_pos hp]
        simp [List.lookup]
      · have hk : (k == p.1) = false := by
          simp only [beq_eq_false_iff_ne, ne_eq]
          exact fun hc => hp hc.symm
        have hrest : rest.any (fun p => decide (p.1 = k)) = true := by
          simpa [List.any_cons, hp] using h
        rw [List.map_cons, if_neg hp]
        simpa [List.lookup, hk] using ih hrest

theorem lookup_append_fresh {κ ν : Type} [DecidableEq κ] (k : κ) (v : ν) :
    ∀ d : List (κ × ν), ¬ d.any (fun p => decide (p.1 = k)) = true →
      (d ++ [(k, v)]).lookup k = some v := by
  intro d
  induction d with
  | nil => intro _; simp [List.lookup]
  | cons p rest ih =>
      intro h
      have hp : ¬ p.1 = k := by
        intro hc
        exact h (by simp [List.any_cons, hc])
      have hk : (k == p.1) = false := by
        simp only [beq_eq_false_iff_ne, ne_eq]
        exact fun hc => hp hc.symm
      have hrest : ¬ rest.any (fun p => decide (p.1 = k)) = true := by
        intro hc
        exact h (by simp [List.any_cons, hc])
      simpa [List.lookup, hk] using ih hrest

theorem lookup_dictInsert {κ ν : Type} [DecidableEq κ] (d : List (κ × ν))
    (k : κ) (v : ν) : (dictInsert d k v).lookup k = some v := by
  unfold dictInsert
  split
  · exact lookup_map_overwrite k v d (by assumption)
  · exact lookup_append_fresh k v d (by assumption)

theorem emit_assignment_publish (state : RunState) (j : String) (r t : ℤ)
    (reason : String) (job : Baseline.DJob) (hmem : j ∉ state.assigned_jobs)
    (hl : state.jobs.lookup j = some job)
    (hpend : job.state = "pending" ∨ job.state = "unassigned") :
    emit_assignment state j r t reason =
      ({ state with
          assigned_jobs := setAdd state.assigned_jobs j
          jobs := dictInsert state.jobs j { job with state := "assigned" }
          robots :=
            match state.robots.lookup r with
            | none => state.robots
            | some robot =>
                dictInsert state.robots r
                  { robot with state := "moving_to_pickup"
                               current_job_id := some j }
          pending_assignments :=
            dictInsert state.pending_assignments r j },
       [⟨j, r, t, reason, state.run_id ++ ":" ++ j⟩]) := by
  unfold emit_assignment
  rw [if_neg hmem, hl]
  dsimp only []
  rw [if_neg (not_not_intro hpend)]

theorem emit_assignment_emitOk (state : RunState) (j : String) (r t : ℤ)
    (reason : String) :
    EmitOk state (emit_assignment state j r t reason).1
      (emit_assignment state j r t reason).2 := by
  by_cases hmem : j ∈ state.assigned_jobs
  · have he : emit_assignment state j r t reason = (state, []) := by
      unfold emit_assignment
      rw [if_pos hmem]
    rw [he]
    exact emitOk_nil state
  · cases hl : state.jobs.lookup j with
    | none =>
        have he : emit_assignment state j r t reason = (state, []) := by
          unfold emit_assignment
          rw [if_neg hmem, hl]
        rw [he]
        exact emitOk_nil state
    | some job =>
        by_cases hpend : job.state = "pending" ∨ job.state = "unassigned"
        · rw [emit_assignment_publish state j r t reason job hmem hl hpend]
          intro x
          dsimp only []
          refine ⟨?_, ?_, ?_⟩
          · intro hx
            exact Baseline.setAdd_mem.2 (Or.inl hx)
          · by_cases hxj : x = j
            · subst hxj
              rw [if_neg hmem]
              simp [countEvents]
            · have hjx : ¬ j = x := fun hc => hxj hc.symm
              have hcnt : countEvents x
                  [(⟨j, r, t, reason, state.run_id ++ ":" ++ j⟩ :
                    AssignedEvent)] = 0 := by
                simp [countEvents, hjx]
              rw [hcnt]
              split <;> omega
          · intro hcnt
            by_cases hxj : x = j
            · subst hxj
              exact Baseline.setAdd_mem.2 (Or.inr rfl)
            · exfalso
              have hjx : ¬ j = x := fun hc => hxj hc.symm
              have hc0 : countEvents x
                  [(⟨j, r, t, reason, state.run_id ++ ":" ++ j⟩ :
                    AssignedEvent)] = 0 := by
                simp [countEvents, hjx]
              omega
        · have he : emit_assignment state j r t reason = (state, []) := by
            unfold emit_assignment
            rw [if_neg hmem, hl]
            dsimp only []
            rw [if_pos (by exact hpend)]
          rw [he]
          exact emitOk_nil state

theorem emitList_emitOk :
    ∀ (l : List Baseline.BAssignment) (state : RunState) (t : ℤ),
      EmitOk state (emitList state l t).1 (emitList state l t).2 := by
  intro l
  induction l with
  | nil => intro state t; exact emitOk_nil state
  | cons a rest ih =>
      intro state t
      rw [emitList]
      exact emitOk_comp (emit_assignment_emitOk state a.job_id a.robot_id t
        a.reason) (ih _ t)

theorem emitPlannedLoop_emitOk :
    ∀ (queue : List String) (state : RunState) (r t : ℤ),
      EmitOk state (emitPlannedLoop state r t queue).1
        (emitPlannedLoop state r t queue).2.1 := by
  intro queue
  induction queue with
  | nil => intro state r t; exact emitOk_nil state
  | cons job_id rest ih =>
      intro state r t
      rw [emitPlannedLoop]
      cases hl : state.jobs.lookup job_id with
      | none => exact ih state r t
      | some job =>
          dsimp only []
          by_cases h1 : job_id ∈ state.assigned_jobs
          · rw [if_pos h1]
            exact ih state r t
          · rw [if_neg h1]
            by_cases h2 : ¬ (job.state = "pending" ∨ job.state = "unassigned")
            · rw [if_pos h2]
              exact ih state r t
            · rw [if_neg h2]
              exact emit_assignment_emitOk state job_id r t "ga_planned"

theorem emit_planned_emitOk (battery_threshold : ℝ) (state : RunState)
    (r t : ℤ) :
    EmitOk state
      (emit_planned_for_idle_robot battery_threshold state r t).1
      (emit_planned_for_idle_robot battery_threshold state r t).2 := by
  unfold emit_planned_for_idle_robot
  cases hr : state.robots.lookup r with
  | none => exact emitOk_nil state
  | some robot =>
      dsimp only []
      by_cases h1 : robot.state ≠ "idle"
      · rw [if_pos h1]
        exact emitOk_nil state
      · rw [if_neg h1]
        by_cases h2 : robot.battery < battery_threshold
        · rw [if_pos h2]
          exact emitOk_nil state
        · rw [if_neg h2]
          cases hq : state.planned_queues.lookup r with
          | none => exact emitOk_nil state
          | some queue =>
              dsimp only []
              intro x
              obtain ⟨m, b, tt⟩ := emitPlannedLoop_emitOk queue state r t x
              exact ⟨m, b, tt⟩

theorem runOp_emitOk (battery_threshold : ℝ) (state : RunState) (op : DOp) :
    EmitOk state (runOp battery_threshold state op).1
      (runOp battery_threshold state op).2 := by
  cases op with
  | emit j r t reason => exact emit_assignment_emitOk state j r t reason
  | baseline t => exact emitList_emitOk _ state t
  | planned r t => exact emit_planned_emitOk battery_threshold state r t

theorem runOps_emitOk (battery_threshold : ℝ) :
    ∀ (ops : List DOp) (state : RunState),
      EmitOk state (runOps battery_threshold state ops).1
        (runOps battery_threshold state ops).2 := by
  intro ops
  induction ops with
  | nil => intro state; exact emitOk_nil state
  | cons op ops ih =>
      intro state
      rw [runOps]
      exact emitOk_comp (runOp_emitOk battery_threshold state op) (ih _)

end AMR.Dispatcher

/-- C2: per run, at most one `job.assigned` event is published per job id
across any sequence of dispatcher operations (direct `_emit_assignment`
calls, baseline dispatches and GA planned-queue emissions):
`_emit_assignment` publishes only when the job id is not yet in
`assigned_jobs` and the job's state is pending/unassigned, and on
publishing it adds the job id to `assigned_jobs` and sets the job state to
`assigned`. -/
theorem job_assigned_at_most_once :
    (∀ (battery_threshold : ℝ) (s0 : AMR.Dispatcher.RunState)
       (ops : List AMR.Dispatcher.DOp) (j : String),
       j ∉ s0.assigned_jobs →
       AMR.Dispatcher.countEvents j
         (AMR.Dispatcher.runOps battery_threshold s0 ops).2 ≤ 1) ∧
    (∀ (state : AMR.Dispatcher.RunState) (j : String) (r t : ℤ)
       (reason : String),
       ((AMR.Dispatcher.emit_assignment state j r t reason).2 ≠ [] ↔
         (j ∉ state.assigned_jobs ∧ ∃ job, state.jobs.lookup j = some job ∧
           (job.state = "pending" ∨ job.state = "unassigned"))) ∧
       ((AMR.Dispatcher.emit_assignment state j r t reason).2 ≠ [] →
         j ∈ (AMR.Dispatcher.emit_assignment state j r t reason).1.assigned_jobs ∧
         ∃ job, state.jobs.lookup j = some job ∧
           (AMR.Dispatcher.emit_assignment state j r t reason).1.jobs.lookup j
             = some { job with state := "assigned" })) := by
  constructor
  · intro battery_threshold s0 ops j hj
    have h := (AMR.Dispatcher.runOps_emitOk battery_threshold ops s0 j).2.1
    rwa [if_neg hj] at h
  · intro state j r t reason
    by_cases hmem : j ∈ state.assigned_jobs
    · have he : AMR.Dispatcher.emit_assignment state j r t reason
          = (state, []) := by
        unfold AMR.Dispatcher.emit_assignment
        rw [if_pos hmem]
      rw [he]
      constructor
      · simp only [ne_eq, not_true_eq_false, false_iff]
        rintro ⟨hj, -⟩
        exact hj hmem
      · intro h
        exact absurd rfl h
    · cases hl : state.jobs.lookup j with
      | none =>
          have he : AMR.Dispatcher.emit_assignment state j r t reason
              = (state, []) := by
            unfold AMR.Dispatcher.emit_assignment
            rw [if_neg hmem, hl]
          rw [he]
          constructor
          · simp only [ne_eq, not_true_eq_false, false_iff]
            rintro ⟨-, job, hl2, -⟩
            exact absurd hl2 (by simp)
          · intro h
            exact absurd rfl h
      | some job =>
          by_cases hpend : job.state = "pending" ∨ job.state = "unassigned"
          · rw [AMR.Dispatcher.emit_assignment_publish state j r t reason job
              hmem hl hpend]
            constructor
            · constructor
              · intro _
                exact ⟨hmem, job, rfl, hpend⟩
              · intro _
                simp
            · intro _
              refine ⟨AMR.Baseline.setAdd_mem.2 (Or.inr rfl), job, rfl, ?_⟩
              exact AMR.Dispatcher.lookup_dictInsert state.jobs j _
          · have he : AMR.Dispatcher.emit_assignment state j r t reason
                = (state, []) := by
              unfold AMR.Dispatcher.emit_assignment
              rw [if_neg hmem, hl]
              dsimp only []
              rw [if_pos (by exact hpend)]
            rw [he]
            constructor
            · simp only [ne_eq, not_true_eq_false, false_iff]
              rintro ⟨-, job2, hl2, hpend2⟩
              simp only [Option.some.injEq] at hl2
              subst hl2
              exact hpend hpend2
            · intro h
              exact absurd rfl h

/-- Witness for C2: a duplicated direct emit for the same job id on a
fresh run state publishes at most one event. -/
theorem job_assigned_at_most_once_witness :
    AMR.Dispatcher.countEvents "job_1"
      (AMR.Dispatcher.runOps 20
        ⟨"run", "baseline", 42, "demo", [], [], [], [], []⟩
        [AMR.Dispatcher.DOp.emit "job_1" 1 0 "baseline_edf_nearest",
         AMR.Dispatcher.DOp.emit "job_1" 1 0 "baseline_edf_nearest"]).2 ≤ 1 :=
  job_assigned_at_most_once.1 20
    ⟨"run", "baseline", 42, "demo", [], [], [], [], []⟩
    [AMR.Dispatcher.DOp.emit "job_1" 1 0 "baseline_edf_nearest",
     AMR.Dispatcher.DOp.emit "job_1" 1 0 "baseline_edf_nearest"]
    "job_1" (by simp)

/-- C10: a moving robot with positive battery whose `current_job_id` does
not name a known job, or whose kinematic target is unset, is reset to idle
by one `_advance_robot` tick (current job and target cleared, position and
battery untouched) instead of failing, and the jobs list and the
engine-side dicts are left unchanged. -/
theorem advance_robot_resets_on_missing_job_or_target
    (cfg : AMR.Engine.EngineCfg) (now : ℤ) (robot : AMR.Engine.Robot)
    (jobs : List AMR.Engine.Job) (resume : List (ℤ × String))
    (dropoff : List (ℤ × ℝ))
    (hmove : robot.state = "moving_to_pickup" ∨
      robot.state = "moving_to_dropoff")
    (hbat : 0 < robot.battery)
    (hcase : AMR.Engine.getJob jobs (robot.current_job_id.getD "") = none ∨
      ((∃ job, AMR.Engine.getJob jobs (robot.current_job_id.getD "")
          = some job) ∧ robot.target_x = none ∧ robot.target_y = none)) :
    ∃ r', AMR.Engine.advanceRobot cfg now robot jobs resume dropoff
        = (r', jobs, resume, dropoff) ∧
      r'.state = "idle" ∧ r'.current_job_id = none ∧
      r'.target_x = none ∧ r'.target_y = none ∧
      r'.battery = robot.battery ∧ r'.x = robot.x ∧ r'.y = robot.y ∧
      r'.id = robot.id := by
  have hcharging : ¬ robot.state = "charging" := by
    rcases hmove with h | h <;> rw [h] <;> decide
  have hbat2 : ¬ (robot.battery ≤ 0 ∧
      (robot.state = "moving_to_pickup" ∨
        robot.state = "moving_to_dropoff")) := by
    rintro ⟨hb, -⟩
    exact absurd hbat (not_lt.2 hb)
  rcases hcase with hnone | ⟨⟨job, hjob⟩, htx, hty⟩
  · refine ⟨{ robot with state := "idle"
                         current_job_id := none
                         target_x := none
                         target_y := none
                         phase_remaining_s := 0 }, ?_, rfl, rfl, rfl, rfl,
      rfl, rfl, rfl, rfl⟩
    unfold AMR.Engine.advanceRobot
    rw [if_neg hcharging, if_neg hbat2, if_neg (not_not_intro hmove), hnone]
  · refine ⟨{ robot with state := "idle", current_job_id := none }, ?_, rfl,
      rfl, htx, hty, rfl, rfl, rfl, rfl⟩
    unfold AMR.Engine.advanceRobot
    rw [if_neg hcharging, if_neg hbat2, if_neg (not_not_intro hmove), hjob,
      htx]

/-- Witness for C10: a concrete moving robot whose current job id names no
job in the engine is reset to idle by one tick. -/
theorem advance_robot_resets_witness :
    ∃ r', AMR.Engine.advanceRobot ⟨5, 5, 3600, true, 5, 20⟩ 0
        { id := 1, x := 2, y := 3, speed := 1, battery := 50,
          state := "moving_to_pickup", current_job_id := some "ghost",
          target_x := some 4, target_y := some 5 } [] [] []
        = (r', [], [], []) ∧
      r'.state = "idle" ∧ r'.current_job_id = none ∧
      r'.target_x = none ∧ r'.target_y = none ∧
      r'.battery = (50 : ℝ) ∧ r'.x = (2 : ℝ) ∧ r'.y = (3 : ℝ) ∧
      r'.id = (1 : ℤ) :=
  advance_robot_resets_on_missing_job_or_target ⟨5, 5, 3600, true, 5, 20⟩ 0
    { id := 1, x := 2, y := 3, speed := 1, battery := 50,
      state := "moving_to_pickup", current_job_id := some "ghost",
      target_x := some 4, target_y := some 5 } [] [] []
    (Or.inl rfl) (by norm_num) (Or.inl rfl)

/-- C1: two calls to `optimize_assignments` with identical arguments
(robots, jobs, seed, service time, population size, generations, elite
size, crossover rate, mutation rate) under the same PRNG specification
return identical assignment lists and identical meta dictionaries
(determinism as a two-run equality of the embedded function, which threads
every random draw explicitly from the seeded generator state). -/
theorem optimize_assignments_two_run_deterministic {σ : Type}
    (R : AMR.PyRng σ) (robots : List AMR.GA.Robot) (jobs : List AMR.GA.Job)
    (seed service_time_s : ℤ) (population_size generations elite_size : ℕ)
    (crossover_rate mutation_rate : ℝ) :
    AMR.GA.optimize_assignments R robots jobs seed service_time_s
        population_size generations elite_size crossover_rate mutation_rate
      = AMR.GA.optimize_assignments R robots jobs seed service_time_s
        population_size generations elite_size crossover_rate mutation_rate :=
  rfl

/-- C9: `generate_scenario` fails with a validation error exactly when the
scale is not a key of the scale map, or exactly one of the two overrides
is provided, or a provided override is non-positive; on such failures no
scenario is produced (the `Except` is an error), and all other inputs
generate a scenario without error. -/
theorem generate_scenario_validation {σ : Type} (R : AMR.PyRng σ)
    (robot_speed_min robot_speed_max : ℝ)
    (scale_map : List (String × ℕ × ℕ)) (seed : ℤ) (scale : String)
    (world_size : ℤ) (robots_override jobs_override : Option ℤ) :
    ((∃ e, AMR.World.generate_scenario R robot_speed_min robot_speed_max
        scale_map seed scale world_size robots_override jobs_override
        = Except.error e) ↔
      (scale_map.lookup scale = none ∨
       robots_override.isSome ≠ jobs_override.isSome ∨
       (∃ v, robots_override = some v ∧ v ≤ 0) ∨
       (∃ v, jobs_override = some v ∧ v ≤ 0))) ∧
    ((∃ e, AMR.World.generate_scenario R robot_speed_min robot_speed_max
        scale_map seed scale world_size robots_override jobs_override
        = Except.error e) ∨
     (∃ out, AMR.World.generate_scenario R robot_speed_min robot_speed_max
        scale_map seed scale world_size robots_override jobs_override
        = Except.ok out)) := by
  constructor
  · cases hl : scale_map.lookup scale with
    | none =>
        constructor
        · intro _
          exact Or.inl rfl
        · intro _
          refine ⟨"invalid scale: " ++ scale, ?_⟩
          unfold AMR.World.generate_scenario
          rw [hl]
    | some cfg =>
        by_cases h1 : robots_override.isSome ≠ jobs_override.isSome
        · constructor
          · intro _
            exact Or.inr (Or.inl h1)
          · intro _
            refine ⟨"robots_override and jobs_override must be provided together", ?_⟩
            unfold AMR.World.generate_scenario
            rw [hl]
            dsimp only []
            rw [if_pos h1]
        · by_cases h2 : robots_override.any (fun v => decide (v ≤ 0)) = true
          · have hex : ∃ v, robots_override = some v ∧ v ≤ 0 := by
              cases robots_override with
              | none => simp [Option.any] at h2
              | some v =>
                  refine ⟨v, rfl, ?_⟩
                  simpa [Option.any] using h2
            constructor
            · intro _
              exact Or.inr (Or.inr (Or.inl hex))
            · intro _
              refine ⟨"robots_override must be > 0", ?_⟩
              unfold AMR.World.generate_scenario
              rw [hl]
              dsimp only []
              rw [if_neg h1, if_pos h2]
          · by_cases h3 : jobs_override.any (fun v => decide (v ≤ 0)) = true
            · have hex : ∃ v, jobs_override = some v ∧ v ≤ 0 := by
                cases jobs_override with
                | none => simp [Option.any] at h3
                | some v =>
                    refine ⟨v, rfl, ?_⟩
                    simpa [Option.any] using h3
              constructor
              · intro _
                exact Or.inr (Or.inr (Or.inr hex))
              · intro _
                refine ⟨"jobs_override must be > 0", ?_⟩
                unfold AMR.World.generate_scenario
                rw [hl]
                dsimp only []
                rw [if_neg h1, if_neg h2, if_pos h3]
            · have hok : ∃ out, AMR.World.generate_scenario R robot_speed_min
                  robot_speed_max scale_map seed scale world_size
                  robots_override jobs_override = Except.ok out := by
                unfold AMR.World.generate_scenario
                rw [hl]
                dsimp only []
                rw [if_neg h1, if_neg h2, if_neg h3]
                exact ⟨_, rfl⟩
              constructor
              · rintro ⟨e, he⟩
                rcases hok with ⟨out, ho⟩
                rw [ho] at he
                exact absurd he (by simp)
              · rintro (hc | hc | ⟨v, hv, hv0⟩ | ⟨v, hv, hv0⟩)
                · exact absurd hc (by simp)
                · exact absurd hc h1
                · exact absurd h2 (by
                    subst hv
                    simp [Option.any, decide_eq_true_eq, hv0])
                · exact absurd h3 (by
                    subst hv
                    simp [Option.any, decide_eq_true_eq, hv0])
  · cases hg : AMR.World.generate_scenario R robot_speed_min robot_speed_max
        scale_map seed scale world_size robots_override jobs_override with
    | error e => exact Or.inl ⟨e, rfl⟩
    | ok out => exact Or.inr ⟨out, rfl⟩

namespace AMR.GA

theorem getD_map_lt {α β : Type} (f : α → β) (l : List α) (n : ℕ) (d : β)
    (d' : α) (h : n < l.length) :
    (l.map f).getD n d = f (l.getD n d') := by
  rw [List.getD_eq_getElem?_getD, List.getD_eq_getElem?_getD,
    List.getElem?_map, List.getElem?_eq_getElem h]
  simp

theorem jobStep_spec (robots : List Robot) (service_time_s : ℤ) (gene : ℕ)
    (job : Job) (st : EvalSt) (snaps : List RobotSnap)
    (hne : robots ≠ []) (hcorr : Corr robots st snaps) :
    (jobStep robots service_time_s gene job st).total_score
        = st.total_score + specJobScore
            (robots.getD (gene % robots.length) default).speed
            (snaps.getD (gene % robots.length) default) job service_time_s ∧
    Corr robots (jobStep robots service_time_s gene job st)
      (snaps.set (gene % robots.length)
        (specUpdate (robots.getD (gene % robots.length) default).speed
          (snaps.getD (gene % robots.length) default) job service_time_s)) := by
  obtain ⟨hlen, ht, hp, hb, hc⟩ := hcorr
  have hk : gene % robots.length < robots.length :=
    Nat.mod_lt _ (List.length_pos.2 hne)
  have hks : gene % robots.length < snaps.length := by rw [hlen]; exact hk
  have e1 : st.robot_pos.getD (gene % robots.length) (0, 0)
      = (snaps.getD (gene % robots.length) default).pos := by
    rw [hp]; exact getD_map_lt _ snaps _ _ default hks
  have e2 : st.robot_time.getD (gene % robots.length) 0
      = (snaps.getD (gene % robots.length) default).time := by
    rw [ht]; exact getD_map_lt _ snaps _ _ default hks
  have e3 : st.robot_battery.getD (gene % robots.length) 0
      = (snaps.getD (gene % robots.length) default).battery := by
    rw [hb]; exact getD_map_lt _ snaps _ _ default hks
  have e4 : st.robot_job_count.getD (gene % robots.length) 0
      = (snaps.getD (gene % robots.length) default).count := by
    rw [hc]; exact getD_map_lt _ snaps _ _ default hks
  refine ⟨?_, ?_, ?_, ?_, ?_, ?_⟩
  · unfold jobStep specJobScore
    dsimp only []
    rw [e1, e2, e3, e4]
    push_cast
    ring_nf
  · simp [jobStep, hlen]
  · show (jobStep robots service_time_s gene job st).robot_time = _
    unfold jobStep specUpdate
    dsimp only []
    rw [List.map_set, e1, e2, ht]
  · show (jobStep robots service_time_s gene job st).robot_pos = _
    unfold jobStep specUpdate
    dsimp only []
    rw [List.map_set, hp]
  · show (jobStep robots service_time_s gene job st).robot_battery = _
    unfold jobStep specUpdate
    dsimp only []
    rw [List.map_set, e1, e3, hb]
    congr 1
    congr 1
    ring
  · show (jobStep robots service_time_s gene job st).robot_job_count = _
    unfold jobStep specUpdate
    dsimp only []
    rw [List.map_set, e4, hc]

theorem evalLoop_spec (robots : List Robot) (service_time_s : ℤ)
    (chromosome : List ℕ) (hne : robots ≠ []) :
    ∀ (jobs : List Job) (idx : ℕ) (st : EvalSt) (snaps : List RobotSnap),
      Corr robots st snaps →
      (evalLoop robots service_time_s chromosome jobs idx st).total_score
        = st.total_score
          + specEval chromosome robots service_time_s jobs idx snaps := by
  intro jobs
  induction jobs with
  | nil => intro idx st snaps _; simp [evalLoop, specEval]
  | cons job rest ih =>
      intro idx st snaps hcorr
      obtain ⟨hsc, hcorr2⟩ := jobStep_spec robots service_time_s
        (chromosome.getD idx 0) job st snaps hne hcorr
      rw [evalLoop, specEval]
      rw [ih (idx + 1) _ _ hcorr2, hsc]
      ring

theorem corr_init (robots : List Robot) :
    Corr robots (initEvalSt robots) (specInit robots) := by
  refine ⟨by simp [specInit], ?_, ?_, ?_, ?_⟩ <;>
    (simp only [initEvalSt, specInit, List.map_map]; rfl)

theorem dictInsert_fresh {κ ν : Type} [DecidableEq κ] (d : List (κ × ν))
    (k : κ) (v : ν) (h : k ∉ d.map Prod.fst) :
    dictInsert d k v = d ++ [(k, v)] := by
  have hany : d.any (fun p => decide (p.1 = k)) = false := by
    rw [List.any_eq_false]
    intro p hp
    simp only [decide_eq_true_eq]
    intro hc
    exact h (List.mem_map.2 ⟨p, hp, hc⟩)
  unfold dictInsert
  simp [hany]

theorem evalLoop_sum (robots : List Robot) (service_time_s : ℤ)
    (chromosome : List ℕ) :
    ∀ (jobs : List Job) (idx : ℕ) (st : EvalSt),
      st.total_score = (st.job_scores.map Prod.snd).sum →
      (∀ j ∈ jobs, j.id ∉ st.job_scores.map Prod.fst) →
      (jobs.map Job.id).Nodup →
      (evalLoop robots service_time_s chromosome jobs idx st).total_score
        = ((evalLoop robots service_time_s chromosome jobs idx
            st).job_scores.map Prod.snd).sum := by
  intro jobs
  induction jobs with
  | nil => intro idx st h _ _; exact h
  | cons job rest ih =>
      intro idx st hsum hfresh hnd
      have hnd' : (job.id :: rest.map Job.id).Nodup := by simpa using hnd
      rw [evalLoop]
      apply ih
      · show (jobStep robots service_time_s (chromosome.getD idx 0) job
            st).total_score = _
        unfold jobStep
        dsimp only []
        rw [dictInsert_fresh _ _ _ (hfresh job (List.mem_cons_self _ _))]
        simp [hsum]
      · intro j hj
        show j.id ∉ (jobStep robots service_time_s (chromosome.getD idx 0) job
            st).job_scores.map Prod.fst
        unfold jobStep
        dsimp only []
        rw [dictInsert_fresh _ _ _ (hfresh job (List.mem_cons_self _ _))]
        simp only [List.map_append, List.mem_append]
        rintro (hmem | hmem)
        · exact hfresh j (List.mem_cons_of_mem _ hj) hmem
        · simp only [List.map_cons, List.map_nil, List.mem_singleton] at hmem
          exact (List.nodup_cons.1 hnd').1 (hmem ▸ List.mem_map.2 ⟨j, hj, rfl⟩)
      · exact (List.nodup_cons.1 hnd').2

end AMR.GA

/-- C4: for a chromosome of length at least the number of jobs and
non-empty robots and jobs, `evaluate_chromosome` computes exactly the
spec's per-job score `1000*lateness + 2*travel + 3*(6-priority) +
battery_penalty + load_penalty` over the jobs in sorted order with the
spec's robot-snapshot update (time to completion, position to dropoff,
battery clamped at 0, job count incremented), and the returned total is
the sum of the recorded per-job scores (for distinct job ids). -/
theorem evaluate_chromosome_formula (chromosome : List ℕ)
    (robots : List AMR.GA.Robot) (jobs : List AMR.GA.Job)
    (service_time_s : ℤ) (hlen : jobs.length ≤ chromosome.length)
    (hj : jobs ≠ []) (hr : robots ≠ []) :
    (AMR.GA.evaluate_chromosome chromosome robots jobs service_time_s).score
      = AMR.GA.specEval chromosome robots service_time_s
          (AMR.GA.sorted_jobs jobs) 0 (AMR.GA.specInit robots) ∧
    (((AMR.GA.sorted_jobs jobs).map AMR.GA.Job.id).Nodup →
      (AMR.GA.evaluate_chromosome chromosome robots jobs service_time_s).score
        = ((AMR.GA.evaluate_chromosome chromosome robots jobs
            service_time_s).job_scores.map Prod.snd).sum) := by
  have hje : jobs.isEmpty = false := by
    cases jobs with
    | nil => exact absurd rfl hj
    | cons a l => rfl
  have hre : robots.isEmpty = false := by
    cases robots with
    | nil => exact absurd rfl hr
    | cons a l => rfl
  have hev : AMR.GA.evaluate_chromosome chromosome robots jobs service_time_s
      = ⟨(AMR.GA.evalLoop robots service_time_s chromosome
            (AMR.GA.sorted_jobs jobs) 0 (AMR.GA.initEvalSt robots)).total_score,
         (AMR.GA.evalLoop robots service_time_s chromosome
            (AMR.GA.sorted_jobs jobs) 0
            (AMR.GA.initEvalSt robots)).job_scores⟩ := by
    unfold AMR.GA.evaluate_chromosome
    rw [hje, hre]
    rfl
  constructor
  · rw [hev]
    show (AMR.GA.evalLoop robots service_time_s chromosome
        (AMR.GA.sorted_jobs jobs) 0 (AMR.GA.initEvalSt robots)).total_score = _
    rw [AMR.GA.evalLoop_spec robots service_time_s chromosome hr
      (AMR.GA.sorted_jobs jobs) 0 (AMR.GA.initEvalSt robots)
      (AMR.GA.specInit robots) (AMR.GA.corr_init robots)]
    show (AMR.GA.initEvalSt robots).total_score + _ = _
    rw [show (AMR.GA.initEvalSt robots).total_score = 0 from rfl, zero_add]
  · intro hnd
    rw [hev]
    exact AMR.GA.evalLoop_sum robots service_time_s chromosome
      (AMR.GA.sorted_jobs jobs) 0 (AMR.GA.initEvalSt robots) rfl
      (by intro j _; exact List.not_mem_nil _) hnd

/-- Witness for C4: the formula refinement applied at a one-robot,
one-job instance, all hypotheses discharged. -/
theorem evaluate_chromosome_formula_witness :
    (AMR.GA.evaluate_chromosome [0]
        [{ id := 1, x := 0, y := 0, speed := 1, battery := 100,
           state := "idle" }]
        [{ id := "job_1", pickup_x := 0, pickup_y := 0, dropoff_x := 3,
           dropoff_y := 4, deadline_ts := 10, priority := 3 }] 5).score
      = AMR.GA.specEval [0]
          [{ id := 1, x := 0, y := 0, speed := 1, battery := 100,
             state := "idle" }] 5
          (AMR.GA.sorted_jobs
            [{ id := "job_1", pickup_x := 0, pickup_y := 0, dropoff_x := 3,
               dropoff_y := 4, deadline_ts := 10, priority := 3 }]) 0
          (AMR.GA.specInit
            [{ id := 1, x := 0, y := 0, speed := 1, battery := 100,
               state := "idle" }]) :=
  (evaluate_chromosome_formula [0]
      [{ id := 1, x := 0, y := 0, speed := 1, battery := 100,
         state := "idle" }]
      [{ id := "job_1", pickup_x := 0, pickup_y := 0, dropoff_x := 3,
         dropoff_y := 4, deadline_ts := 10, priority := 3 }] 5
      (by simp) (by simp) (by simp)).1

/-- C8: for a fixed robot snapshot and two evaluations of a single job
that are identical except for the deadline, if the tighter-deadline
evaluation is late (its completion time exceeds the tighter deadline),
then the later-deadline evaluation scores strictly lower. -/
theorem fitness_lateness_monotone (robots : List AMR.GA.Robot)
    (service_time_s : ℤ) (gene : ℕ) (st : AMR.GA.EvalSt)
    (job : AMR.GA.Job) (d1 d2 : ℤ) (hd : d1 < d2)
    (hlate : (d1 : ℝ) <
      st.robot_time.getD (gene % robots.length) 0 +
        (AMR.distanceHelper
            (st.robot_pos.getD (gene % robots.length) (0, 0)).1
            (st.robot_pos.getD (gene % robots.length) (0, 0)).2
            job.pickup_x job.pickup_y +
          AMR.distanceHelper job.pickup_x job.pickup_y job.dropoff_x
            job.dropoff_y) /
          max (robots.getD (gene % robots.length) default).speed 0.1 +
        2 * (service_time_s : ℝ)) :
    (AMR.GA.jobStep robots service_time_s gene
        { job with deadline_ts := d2 } st).total_score
      < (AMR.GA.jobStep robots service_time_s gene
        { job with deadline_ts := d1 } st).total_score := by
  have hdr : (d1 : ℝ) < (d2 : ℝ) := by exact_mod_cast hd
  have h1 : (0 : ℝ) <
      st.robot_time.getD (gene % robots.length) 0 +
        (AMR.distanceHelper
            (st.robot_pos.getD (gene % robots.length) (0, 0)).1
            (st.robot_pos.getD (gene % robots.length) (0, 0)).2
            job.pickup_x job.pickup_y +
          AMR.distanceHelper job.pickup_x job.pickup_y job.dropoff_x
            job.dropoff_y) /
          max (robots.getD (gene % robots.length) default).speed 0.1 +
        2 * (service_time_s : ℝ) - (d1 : ℝ) := by linarith
  have hL : max 0
      (st.robot_time.getD (gene % robots.length) 0 +
        (AMR.distanceHelper
            (st.robot_pos.getD (gene % robots.length) (0, 0)).1
            (st.robot_pos.getD (gene % robots.length) (0, 0)).2
            job.pickup_x job.pickup_y +
          AMR.distanceHelper job.pickup_x job.pickup_y job.dropoff_x
            job.dropoff_y) /
          max (robots.getD (gene % robots.length) default).speed 0.1 +
        2 * (service_time_s : ℝ) - (d2 : ℝ))
      < max 0
      (st.robot_time.getD (gene % robots.length) 0 +
        (AMR.distanceHelper
            (st.robot_pos.getD (gene % robots.length) (0, 0)).1
            (st.robot_pos.getD (gene % robots.length) (0, 0)).2
            job.pickup_x job.pickup_y +
          AMR.distanceHelper job.pickup_x job.pickup_y job.dropoff_x
            job.dropoff_y) /
          max (robots.getD (gene % robots.length) default).speed 0.1 +
        2 * (service_time_s : ℝ) - (d1 : ℝ)) := by
    rw [max_eq_right h1.le]
    exact max_lt h1 (by linarith)
  unfold AMR.GA.jobStep
  dsimp only []
  linarith [hL]

/-- Witness for C8: a robot at the origin with speed 1 and a job whose
dropoff is 5 away, deadline 1 versus 2 — the tight evaluation is late and
relaxing the deadline strictly lowers the score. -/
theorem fitness_lateness_monotone_witness :
    (AMR.GA.jobStep
        [{ id := 1, x := 0, y := 0, speed := 1, battery := 100,
           state := "idle" }] 0 0
        { id := "j", pickup_x := 0, pickup_y := 0, dropoff_x := 3,
          dropoff_y := 4, deadline_ts := 2, priority := 3 }
        ⟨[0], [(0, 0)], [100], [0], 0, []⟩).total_score
      < (AMR.GA.jobStep
        [{ id := 1, x := 0, y := 0, speed := 1, battery := 100,
           state := "idle" }] 0 0
        { id := "j", pickup_x := 0, pickup_y := 0, dropoff_x := 3,
          dropoff_y := 4, deadline_ts := 1, priority := 3 }
        ⟨[0], [(0, 0)], [100], [0], 0, []⟩).total_score :=
  fitness_lateness_monotone
    [{ id := 1, x := 0, y := 0, speed := 1, battery := 100,
       state := "idle" }] 0 0 ⟨[0], [(0, 0)], [100], [0], 0, []⟩
    { id := "j", pickup_x := 0, pickup_y := 0, dropoff_x := 3,
      dropoff_y := 4, deadline_ts := 1, priority := 3 } 1 2
    (by norm_num)
    (by
      have h25 : Real.sqrt 25 = 5 := by
        rw [show (25 : ℝ) = 5 ^ 2 by norm_num]
        exact Real.sqrt_sq (by norm_num)
      norm_num [AMR.distanceHelper, h25])
